import Mathlib

/-!
# RTSeis: single-channel filtering, STA/LTA detection and tapering

A shallow embedding of the post-processing `Waveform`
(`src/src/processing/singleChannel/postProcessing.cpp`), the `Taper`
module (`src/src/processing/singleChannel/taper.cpp`), the classic
STA/LTA detector declared in `src/include/rtseis/modules/classicSTALTA.hpp`,
the `Detrend` module (`src/src/modules/detrend.cpp`) and the complex vector
division of `src/src/utils/math/vectorMath.cpp`.

Samples are rationals: every statement below is about exact arithmetic.
Vectors are lists, `std::vector::resize` pads with zeros, exceptions are
the `Except` monad over `Error`.
-/

namespace RTSeis

/-- Error kinds raised by the toolkit (`std::invalid_argument`, the
not-initialized / unsupported-operation failures, and the `std::length_error`
of a vector asked for more than its maximal size). -/
inductive Error where
  | InvalidArgument
  | NotInitialized
  | UnsupportedOperation
  | LengthError
  deriving DecidableEq, Repr

/-- Enumeration `RTSeis::ProcessingMode`: batch post-processing or streaming
real-time. -/
inductive ProcessingMode where
  | POST_PROCESSING
  | REAL_TIME
  deriving DecidableEq, Repr

/-! ## Buffer helpers -/

/-- Writes `src` into `dst` starting at offset `off`, as a pointer write
`dst[off + k] = src[k]` does; the length of `dst` is kept. -/
def writeAt (dst : List ℚ) (off : Nat) (src : List ℚ) : List ℚ :=
  (dst.take off ++ src ++ dst.drop (off + src.length)).take dst.length

/-- Vector `std::vector<double>::resize(n)`: truncates or pads with zeros. -/
def resize (v : List ℚ) (n : Nat) : List ℚ :=
  v.take n ++ List.replicate (n - v.length) 0

/-- Inner product of two coefficient lists (stops at the shorter one). -/
def dot : List ℚ → List ℚ → ℚ
  | a :: as, b :: bs => a * b + dot as bs
  | _, _ => 0

/-! ## FIR filter engine -/

/-- Modelled from the spec: the direct-form FIR kernel of §4.1
(`FIRFilter::apply` is not among the sources).  `ext` is the delay line
followed by the input, oldest sample first; output sample `i` is the inner
product of the taps with the `taps.length` most recent samples ending at
input sample `i`. -/
def firWindows (taps : List ℚ) : Nat → List ℚ → List ℚ
  | 0, _ => []
  | n + 1, ext => dot taps.reverse (ext.take taps.length) :: firWindows taps n ext.tail

/-- Modelled from the spec: the FIR filter engine of §4.1, holding its
taps, its processing mode and a delay line of `taps.length - 1` samples. -/
structure FIRFilter where
  taps : List ℚ
  mode : ProcessingMode
  zi : List ℚ
  deriving DecidableEq, Repr

/-- Modelled from the spec: `FIRFilter::initialize` of §4.1 validates
`taps.length ≥ 1` and allocates a zeroed delay line of `taps.length - 1`. -/
def FIRFilter.init (taps : List ℚ) (mode : ProcessingMode) : Except Error FIRFilter :=
  if taps.length < 1 then .error .InvalidArgument
  else .ok ⟨taps, mode, List.replicate (taps.length - 1) 0⟩

/-- Modelled from the spec: `FIRFilter::apply` of §4.1.  In batch mode the
samples before index 0 are zero and nothing is remembered; in streaming mode
they come from the delay line, which afterwards holds the trailing
`taps.length - 1` samples seen. -/
def FIRFilter.apply (f : FIRFilter) (x : List ℚ) : List ℚ × FIRFilter :=
  match f.mode with
  | .POST_PROCESSING =>
    (firWindows f.taps x.length (List.replicate (f.taps.length - 1) 0 ++ x), f)
  | .REAL_TIME =>
    (firWindows f.taps x.length (f.zi ++ x), ⟨f.taps, f.mode, (f.zi ++ x).drop x.length⟩)

/-- Modelled from the spec: `setInitialConditions` of §4.1 overwrites the
delay line; the length must match exactly. -/
def FIRFilter.setInitialConditions (f : FIRFilter) (zi : List ℚ) : Except Error FIRFilter :=
  if zi.length = f.taps.length - 1 then .ok ⟨f.taps, f.mode, zi⟩
  else .error .InvalidArgument

/-- Modelled from the spec: `reset` of §4.1 zeroes the delay line and keeps
the coefficients. -/
def FIRFilter.resetInitialConditions (f : FIRFilter) : FIRFilter :=
  ⟨f.taps, f.mode, List.replicate (f.taps.length - 1) 0⟩

/-! ## Second-order-section filter engine -/

/-- Recursive state of one biquad section: the two previous inputs and the
two previous outputs. -/
structure BiquadState where
  x1 : ℚ
  x2 : ℚ
  y1 : ℚ
  y2 : ℚ
  deriving DecidableEq, Repr

/-- Modelled from the spec: one section of §4.2 run over a signal,
`y[i] = (b·recent inputs − a[1..]·recent outputs) / a[0]`, returning the
outputs and the final state. -/
def biquadRun (b a : List ℚ) : BiquadState → List ℚ → List ℚ × BiquadState
  | s, [] => ([], s)
  | s, x :: xs =>
    let y := (b.getD 0 0 * x + b.getD 1 0 * s.x1 + b.getD 2 0 * s.x2
               - a.getD 1 0 * s.y1 - a.getD 2 0 * s.y2) / a.getD 0 0
    let r := biquadRun b a ⟨x, s.x1, y, s.y1⟩ xs
    (y :: r.1, r.2)

/-- Modelled from the spec: the cascade of §4.2; section `k` reads
coefficients `3k .. 3k+2` of the flat numerator and denominator arrays and
feeds section `k + 1`. -/
def sosCascade : Nat → List ℚ → List ℚ → List BiquadState → List ℚ → List ℚ × List BiquadState
  | 0, _, _, _, x => (x, [])
  | n + 1, bs, as, st, x =>
    let r := biquadRun (bs.take 3) (as.take 3) (st.headD ⟨0, 0, 0, 0⟩) x
    let rest := sosCascade n (bs.drop 3) (as.drop 3) st.tail r.1
    (rest.1, r.2 :: rest.2)

/-- Modelled from the spec: the SOS filter engine of §4.2. -/
structure SOSFilter where
  ns : Nat
  bs : List ℚ
  as : List ℚ
  mode : ProcessingMode
  zi : List BiquadState
  deriving DecidableEq, Repr

/-- Modelled from the spec: `SOSFilter::initialize` of §4.2; at least one
section, three numerator and three denominator coefficients per section. -/
def SOSFilter.init (ns : Nat) (bs as : List ℚ) (mode : ProcessingMode) :
    Except Error SOSFilter :=
  if ns < 1 ∨ bs.length ≠ 3 * ns ∨ as.length ≠ 3 * ns then .error .InvalidArgument
  else .ok ⟨ns, bs, as, mode, List.replicate ns ⟨0, 0, 0, 0⟩⟩

/-- Modelled from the spec: `SOSFilter::apply` of §4.2, batch or streaming
as for the FIR engine. -/
def SOSFilter.apply (f : SOSFilter) (x : List ℚ) : List ℚ × SOSFilter :=
  match f.mode with
  | .POST_PROCESSING =>
    ((sosCascade f.ns f.bs f.as (List.replicate f.ns ⟨0, 0, 0, 0⟩) x).1, f)
  | .REAL_TIME =>
    let r := sosCascade f.ns f.bs f.as f.zi x
    (r.1, ⟨f.ns, f.bs, f.as, f.mode, r.2⟩)

/-! ## Waveform filtering (`postProcessing.cpp`) -/

/-- Source `Waveform::WaveformImpl`: the stored input `x_`, the output `y_` and the
sampling period. -/
structure Waveform where
  x_ : List ℚ
  y_ : List ℚ
  dt : ℚ
  deriving DecidableEq, Repr

namespace Waveform

/-- Source `WaveformImpl::getLengthOfInputSignal`. -/
def getLengthOfInputSignal (w : Waveform) : Nat := w.x_.length

/-- Source `WaveformImpl::resizeOutputData`. -/
def resizeOutputData (w : Waveform) (n : Nat) : Waveform :=
  ⟨w.x_, resize w.y_ n, w.dt⟩

/-- The static `copy(x, y)`: `ippsCopy_64f(x, y, x.size())`. -/
def copy (x y : List ℚ) : List ℚ := writeAt y 0 x

/-- The static in-place `reverse(x)`: `ippsFlip_64f_I`. -/
def reverse (x : List ℚ) : List ℚ := x.reverse

/-- The static `reverse(x, y)`: `ippsFlip_64f(x, y, x.size())`. -/
def reverseInto (x y : List ℚ) : List ℚ := writeAt y 0 x.reverse

/-- Source `Waveform::firFilter`.  The engine call `apply(len, in, out)` reads `len`
samples of `in` and writes `len` samples at the start of `out`. -/
def firFilter (w : Waveform) (taps : List ℚ) (lremovePhase : Bool) : Except Error Waveform :=
  let len := w.getLengthOfInputSignal
  if len < 1 then .ok w
  else if taps.length < 1 then .error .InvalidArgument
  else
    match FIRFilter.init taps .POST_PROCESSING with
    | .error e => .error e
    | .ok firFilter =>
      let w := w.resizeOutputData len
      if lremovePhase then
        -- std::vector<double> xwork(len); copy(pImpl->x_, xwork);
        let xwork := List.replicate len (0 : ℚ)
        let xwork := copy w.x_ xwork
        -- firFilter.apply(len, xwork.data(), pImpl->y_.data());
        let r1 := firFilter.apply (xwork.take len)
        let y := writeAt w.y_ 0 r1.1
        -- reverse(pImpl->y_, xwork);
        let xwork := reverseInto y xwork
        -- firFilter.apply(len, pImpl->x_.data(), pImpl->y_.data());
        let r2 := r1.2.apply (w.x_.take len)
        let y := writeAt y 0 r2.1
        -- xwork is not read again; reverse(pImpl->y_);
        let _xwork := xwork
        .ok ⟨w.x_, reverse y, w.dt⟩
      else
        -- firFilter.apply(len, pImpl->x_.data(), pImpl->y_.data());
        let r := firFilter.apply (w.x_.take len)
        .ok ⟨w.x_, writeAt w.y_ 0 r.1, w.dt⟩

/-- Source `Waveform::sosFilter`, with the section count and the flat coefficient
arrays of the `SOS` representation. -/
def sosFilter (w : Waveform) (ns : Nat) (bs as : List ℚ) (lremovePhase : Bool) :
    Except Error Waveform :=
  let len := w.getLengthOfInputSignal
  if len < 1 then .ok w
  else if ns < 1 then .error .InvalidArgument
  else
    match SOSFilter.init ns bs as .POST_PROCESSING with
    | .error e => .error e
    | .ok sosFilter =>
      let w := w.resizeOutputData len
      if lremovePhase then
        -- std::vector<double> xwork(len); copy(pImpl->x_, xwork);
        let xwork := List.replicate len (0 : ℚ)
        let xwork := copy w.x_ xwork
        -- sosFilter.apply(len, xwork.data(), pImpl->y_.data());
        let r1 := sosFilter.apply (xwork.take len)
        let y := writeAt w.y_ 0 r1.1
        -- reverse(pImpl->y_, xwork);
        let xwork := reverseInto y xwork
        -- sosFilter.apply(len, pImpl->x_.data(), pImpl->y_.data());
        let r2 := r1.2.apply (w.x_.take len)
        let y := writeAt y 0 r2.1
        -- xwork is not read again; reverse(pImpl->y_);
        let _xwork := xwork
        .ok ⟨w.x_, reverse y, w.dt⟩
      else
        -- sosFilter.apply(len, pImpl->x_.data(), pImpl->y_.data());
        let r := sosFilter.apply (w.x_.take len)
        .ok ⟨w.x_, writeAt w.y_ 0 r.1, w.dt⟩

end Waveform

/-! ## Classic STA/LTA (`classicSTALTA.hpp`) -/

/-- Enumeration `RTSeis::Precision`: 32- or 64-bit floats. -/
inductive Precision where
  | FLOAT
  | DOUBLE
  deriving DecidableEq, Repr

/-- The private members of `ClassicSTALTAParameters`. -/
structure ClassicSTALTAParameters where
  nsta_ : Int
  nlta_ : Int
  chunkSize_ : Nat
  precision_ : Precision
  isRealTime_ : Bool
  isInitialized_ : Bool
  deriving DecidableEq, Repr

namespace ClassicSTALTAParameters

/-- The default constructor: the in-class member initializers of the header
(`nsta_ = 0`, `nlta_ = 0`, `chunkSize_ = 1024`, double precision, not
real-time, not initialized). -/
def default : ClassicSTALTAParameters := ⟨0, 0, 1024, .DOUBLE, false, false⟩

/-- Modelled from the spec: `ClassicSTALTAParameters::clear` restores the
defaults (its body is not among the sources). -/
def clear (_p : ClassicSTALTAParameters) : ClassicSTALTAParameters := default

/-- Modelled from the spec: the constructor
`ClassicSTALTAParameters(nsta, nlta, lrt, precision)`, whose body is not
among the sources.  §3 and §8: the short window must be at least 1 and the
long window strictly larger, otherwise `InvalidArgument` and the object stays
in its default, uninitialized state. -/
def create (nsta nlta : Int) (lrt : Bool) (precision : Precision) :
    Except Error Unit × ClassicSTALTAParameters :=
  if nsta < 1 then (.error .InvalidArgument, default)
  else if nlta ≤ nsta then (.error .InvalidArgument, default)
  else (.ok (), ⟨nsta, nlta, 1024, precision, lrt, true⟩)

/-- Modelled from the spec: the getter `getShortTermWindowSize` declared in
the header. -/
def getShortTermWindowSize (p : ClassicSTALTAParameters) : Int := p.nsta_

/-- Modelled from the spec: the getter `getLongTermWindowSize` declared in
the header. -/
def getLongTermWindowSize (p : ClassicSTALTAParameters) : Int := p.nlta_

/-- Modelled from the spec: the getter `isInitialized` declared in the
header. -/
def isInitialized (p : ClassicSTALTAParameters) : Bool := p.isInitialized_

/-- Modelled from the spec: the getter `isRealTime` declared in the header. -/
def isRealTime (p : ClassicSTALTAParameters) : Bool := p.isRealTime_

end ClassicSTALTAParameters

/-- The private members of `ClassicSTALTA`: the numerator (short-term) and
denominator (long-term) FIR engines, the parameters and the initialized
flag.  The scratch arrays `x2_`, `ynum_`, `yden_` carry nothing between
calls and are local to `apply` here. -/
structure ClassicSTALTA where
  firNum_ : FIRFilter
  firDen_ : FIRFilter
  parms_ : ClassicSTALTAParameters
  isInitialized_ : Bool
  deriving DecidableEq, Repr

/-- A torn-down FIR engine: no taps, no delay line. -/
def FIRFilter.cleared : FIRFilter := ⟨[], .POST_PROCESSING, []⟩

/-- Modelled from the spec: the boxcar kernel of §4.4, `n` equal
coefficients summing to 1. -/
def boxcar (n : Nat) : List ℚ := List.replicate n (1 / (n : ℚ))

/-- Modelled from the spec: the ratio of §4.4, short-term over long-term
average, defined as 0 when the long-term average is exactly 0. -/
def staltaRatio (sta lta : ℚ) : ℚ := if lta = 0 then 0 else sta / lta

/-- The processing mode selected by the real-time flag. -/
def modeOf (lrt : Bool) : ProcessingMode :=
  if lrt then ProcessingMode.REAL_TIME else ProcessingMode.POST_PROCESSING

namespace ClassicSTALTA

/-- The default constructor `ClassicSTALTA()`: `isInitialized_ = false`. -/
def default : ClassicSTALTA :=
  ⟨FIRFilter.cleared, FIRFilter.cleared, ClassicSTALTAParameters.default, false⟩

/-- Modelled from the spec: `clear()` of §4.4 tears down both engines and
returns the detector to UNINITIALIZED. -/
def clear (_d : ClassicSTALTA) : ClassicSTALTA := default

/-- Modelled from the spec: `ClassicSTALTA::isInitialized` declared in the
header, READY or not. -/
def isInitialized (d : ClassicSTALTA) : Bool := d.isInitialized_

/-- Modelled from the spec: `initialize(parameters)` of §4.4 (the constructor
`ClassicSTALTA(parameters)`): validates the window invariants of §3, builds
the two normalized boxcar engines with the parameters' real-time flag and
becomes READY; on failure the detector is left cleared. -/
def init (p : ClassicSTALTAParameters) : Except Error Unit × ClassicSTALTA :=
  if p.nsta_ < 1 ∨ p.nlta_ ≤ p.nsta_ then (.error .InvalidArgument, default)
  else
    let mode := modeOf p.isRealTime_
    match FIRFilter.init (boxcar p.nsta_.toNat) mode,
          FIRFilter.init (boxcar p.nlta_.toNat) mode with
    | .ok fnum, .ok fden => (.ok (), ⟨fnum, fden, p, true⟩)
    | _, _ => (.error .InvalidArgument, default)

/-- Modelled from the spec: `apply` of §4.4: `NotInitialized` unless READY;
otherwise square the input, run both averaging engines over the squares and
return the elementwise ratio. -/
def apply (d : ClassicSTALTA) (x : List ℚ) : Except Error (List ℚ) × ClassicSTALTA :=
  if d.isInitialized_ = false then (.error .NotInitialized, d)
  else
    let x2 := x.map (fun v => v * v)
    let ynum := d.firNum_.apply x2
    let yden := d.firDen_.apply x2
    (.ok (List.zipWith staltaRatio ynum.1 yden.1), ⟨ynum.2, yden.2, d.parms_, d.isInitialized_⟩)

/-- Modelled from the spec: `setInitialConditions(nzNum, zNum, nzDen, zDen)`
of §4.4 forwards to both engines; `NotInitialized` unless READY, and
`InvalidArgument` on a length mismatch (§4.1). -/
def setInitialConditions (d : ClassicSTALTA) (zNum zDen : List ℚ) :
    Except Error Unit × ClassicSTALTA :=
  if d.isInitialized_ = false then (.error .NotInitialized, d)
  else
    match d.firNum_.setInitialConditions zNum, d.firDen_.setInitialConditions zDen with
    | .ok fnum, .ok fden => (.ok (), ⟨fnum, fden, d.parms_, d.isInitialized_⟩)
    | _, _ => (.error .InvalidArgument, d)

/-- Modelled from the spec: `resetInitialConditions()` of §4.4 forwards to
both engines; `NotInitialized` unless READY. -/
def resetInitialConditions (d : ClassicSTALTA) : Except Error Unit × ClassicSTALTA :=
  if d.isInitialized_ = false then (.error .NotInitialized, d)
  else
    (.ok (), ⟨d.firNum_.resetInitialConditions, d.firDen_.resetInitialConditions,
              d.parms_, d.isInitialized_⟩)

/-- The operations a caller can invoke on a detector. -/
inductive Op where
  | init (p : ClassicSTALTAParameters)
  | apply (x : List ℚ)
  | setInitialConditions (zNum zDen : List ℚ)
  | resetInitialConditions
  | clear
  deriving DecidableEq, Repr

/-- One call on a detector: the error raised (if any), the output samples
written (if any) and the detector afterwards. -/
def step (d : ClassicSTALTA) : Op → Option Error × Option (List ℚ) × ClassicSTALTA
  | .init p =>
    match init p with
    | (.ok _, d1) => (none, none, d1)
    | (.error e, d1) => (some e, none, d1)
  | .apply x =>
    match d.apply x with
    | (.ok y, d1) => (none, some y, d1)
    | (.error e, d1) => (some e, none, d1)
  | .setInitialConditions zNum zDen =>
    match d.setInitialConditions zNum zDen with
    | (.ok _, d1) => (none, none, d1)
    | (.error e, d1) => (some e, none, d1)
  | .resetInitialConditions =>
    match d.resetInitialConditions with
    | (.ok _, d1) => (none, none, d1)
    | (.error e, d1) => (some e, none, d1)
  | .clear => (none, none, d.clear)

end ClassicSTALTA

/-! ## Tapering (`taper.cpp`) -/

/-- Source `TaperParameters::Type`: the supported window families. -/
inductive TaperType where
  | HAMMING
  | BLACKMAN
  | HANN
  | BARTLETT
  | SINE
  deriving DecidableEq, Repr

/-- Source `TaperParameters::TaperParametersImpl` (the processing mode is a
constant and is left out). -/
structure TaperParameters where
  pct : ℚ
  type : TaperType
  precision : Precision
  deriving DecidableEq, Repr

namespace TaperParameters

/-- The member initializers of `TaperParametersImpl`: 5 percent, Hamming,
double precision. -/
def default : TaperParameters := ⟨5, .HAMMING, .DOUBLE⟩

/-- Source `TaperParameters::setPercentage`: the error raised, if any, and the
object afterwards. -/
def setPercentage (p : TaperParameters) (pct : ℚ) : Except Error Unit × TaperParameters :=
  if pct < 0 ∨ pct > 100 then (.error .InvalidArgument, p)
  else (.ok (), ⟨pct, p.type, p.precision⟩)

/-- Source `TaperParameters::getPercentage`. -/
def getPercentage (p : TaperParameters) : ℚ := p.pct

/-- Source `TaperParameters::setTaperType`. -/
def setTaperType (p : TaperParameters) (type : TaperType) : TaperParameters :=
  ⟨p.pct, type, p.precision⟩

/-- Source `TaperParameters::getTaperType`. -/
def getTaperType (p : TaperParameters) : TaperType := p.type

/-- Source `TaperParameters::setPrecision`. -/
def setPrecision (p : TaperParameters) (precision : Precision) : TaperParameters :=
  ⟨p.pct, p.type, precision⟩

/-- Source `TaperParameters::clear`. -/
def clear (_p : TaperParameters) : TaperParameters := ⟨5, .HAMMING, .DOUBLE⟩

/-- Source `TaperParameters::isValid`. -/
def isValid (p : TaperParameters) : Bool :=
  if p.pct < 0 ∨ p.pct > 100 then false else true

/-- The constructor `TaperParameters(pct, type, precision)`: starts from the
member initializers and calls the three setters; a throwing setter aborts the
construction. -/
def create (pct : ℚ) (type : TaperType) (precision : Precision) : Except Error TaperParameters :=
  match default.setPercentage pct with
  | (.error e, _) => .error e
  | (.ok _, p) => .ok ((p.setTaperType type).setPrecision precision)

end TaperParameters

/-- Source `Taper::TaperImpl`: the parameters, the double-precision window `w8` and
the length `winLen0` of the last designed window (the single-precision
window `w4` is not used by the double-precision `apply`). -/
structure Taper where
  parms : TaperParameters
  w8 : List ℚ
  winLen0 : Int
  deriving DecidableEq, Repr

/-- Conversion `static_cast<int>` of a real value to the 32-bit `int`:
truncation toward zero when the truncated value lies in
`[-2^31, 2^31 - 1]`.  Outside that range the conversion overflows (the
language leaves the value undefined); the value taken is `INT_MIN = -2^31`,
what the x86 conversion instruction `cvttsd2si` returns. -/
def truncToInt (q : ℚ) : Int :=
  let t := q.num.tdiv q.den
  if -2 ^ 31 ≤ t ∧ t < 2 ^ 31 then t else -2 ^ 31

namespace Taper

/-- The constructor `Taper()`. -/
def default : Taper := ⟨TaperParameters.default, [], -1⟩

/-- Source `Taper::clear`. -/
def clear (t : Taper) : Taper := ⟨t.parms.clear, [], -1⟩

/-- Source `Taper::setParameters`. -/
def setParameters (t : Taper) (parameters : TaperParameters) : Except Error Unit × Taper :=
  let t := t.clear
  if parameters.isValid = false then (.error .InvalidArgument, t)
  else (.ok (), ⟨parameters, t.w8, t.winLen0⟩)

/-- The rounded product `npct` computed at the top of `Taper::apply`:
`static_cast<int> (static_cast<double> (nx)*pct + 0.5)`, an `int` (it is
`INT_MIN` when `nx*pct + 0.5` does not fit). -/
def npct (nx : Int) (pct : ℚ) : Int := truncToInt ((nx : ℚ) * pct + 1 / 2)

/-- The taper length `m = std::min(nx - 2, npct)` of `Taper::apply`. -/
def taperLength (nx : Int) (pct : ℚ) : Int := min (nx - 2) (npct nx pct)

/-- Primitive `ippsMul_64f(a, b, dst, n)`: the first `n` elementwise products. -/
def ippsMul (a b : List ℚ) (n : Nat) : List ℚ :=
  List.zipWith (fun u v => u * v) (a.take n) (b.take n)

/-- Source `Taper::apply(nx, x, y)` for the double-precision arrays, `nx` an
`int`; `none` is a null pointer.  `window type m` stands for the window generators of
`rtseis/utilities/windowFunctions.hpp` (`hamming(m, w8)` and its siblings),
which are not among the sources.  Returns the error raised, if any, the
module afterwards and the output array afterwards. -/
def apply (window : TaperType → Nat → List ℚ) (t : Taper) (nx : Int)
    (x y : Option (List ℚ)) : Except Error Unit × Taper × Option (List ℚ) :=
  if nx ≤ 0 then (.ok (), t, y)
  else
    match x, y with
    | none, _ => (.error .InvalidArgument, t, y)
    | _, none => (.error .InvalidArgument, t, y)
    | some x, some y =>
      if nx < 3 then
        let y := writeAt y 0 [0]
        let y := if nx = 2 then writeAt y 1 [0] else y
        (.ok (), t, some y)
      else
        let pct := t.parms.getPercentage
        let m := taperLength nx pct
        -- w8.reserve(m+2): a negative m+2 is a huge size_t and throws length_error
        if t.winLen0 ≠ m ∧ m + 2 < 0 then (.error .LengthError, t, some y)
        else
          let t :=
            if t.winLen0 ≠ m then
              let w8 := window t.parms.getTaperType m.toNat
              let w8 := 0 :: w8
              let w8 := w8 ++ [0]
              (⟨t.parms, w8, t.winLen0⟩ : Taper)
            else t
          let mp12 := (m + 1).tdiv 2
          let w := t.w8
          let y := writeAt y 0 (ippsMul w x mp12.toNat)
          let ncopy := nx - mp12 - mp12
          let y :=
            if ncopy > 0 then writeAt y mp12.toNat ((x.drop mp12.toNat).take ncopy.toNat)
            else y
          let y := writeAt y (nx - mp12).toNat
            (ippsMul (w.drop (m + 2 - mp12).toNat) (x.drop (nx - mp12).toNat) mp12.toNat)
          (.ok (), t, some y)

end Taper

/-! ## Reference passes used in the statements -/

/-- One batch (zero initial state) pass of the FIR engine over `x`. -/
def firPass (taps x : List ℚ) : List ℚ :=
  (FIRFilter.apply ⟨taps, .POST_PROCESSING, List.replicate (taps.length - 1) 0⟩ x).1

/-- One batch (zero initial state) pass of the SOS engine over `x`. -/
def sosPass (ns : Nat) (bs as x : List ℚ) : List ℚ :=
  (SOSFilter.apply ⟨ns, bs, as, .POST_PROCESSING, List.replicate ns ⟨0, 0, 0, 0⟩⟩ x).1

/-- The zero-phase protocol of §4.3 for an engine pass `F`:
forward, reverse, forward over the reversed result, reverse. -/
def zeroPhase (F : List ℚ → List ℚ) (x : List ℚ) : List ℚ :=
  (F (F x).reverse).reverse

/-- The detector obtained by constructing the parameters from the window
lengths and initializing a detector from them. -/
def ClassicSTALTA.fresh (nsta nlta : Int) (lrt : Bool) (precision : Precision) : ClassicSTALTA :=
  (ClassicSTALTA.init (ClassicSTALTAParameters.create nsta nlta lrt precision).2).2

/-- The loop `for (i = 0; i < n; i++) acc = acc + f(i)` started from
`acc = 0`: the accumulator after `n` iterations. -/
def accumulate (f : Nat → ℚ) : Nat → ℚ
  | 0 => 0
  | i + 1 => accumulate f i + f i

/-- Conversion `static_cast<uint64_t>` of an `int`: reduction modulo `2^64`. -/
def toUInt64 (n : Int) : Nat := (n % 2 ^ 64).toNat

/-- Primitive `ippsMean_64f(pSrc, len, &mean)`: the arithmetic mean of the
first `len` samples. -/
def ippsMean (pSrc : List ℚ) (len : Int) : ℚ :=
  accumulate (fun i => pSrc.getD i 0) len.toNat / (len : ℚ)

/-- The members of `DetrendParameters`. -/
structure DetrendParameters where
  precision_ : Precision
  lrt_ : Bool
  linit_ : Bool
  deriving DecidableEq, Repr

namespace DetrendParameters

/-- The constructor `DetrendParameters(precision)`. -/
def create (precision : Precision) : DetrendParameters := ⟨precision, false, true⟩

/-- Source `DetrendParameters::clear`; the default precision is double. -/
def clear (_p : DetrendParameters) : DetrendParameters := ⟨.DOUBLE, false, true⟩

/-- Source `DetrendParameters::getPrecision`. -/
def getPrecision (p : DetrendParameters) : Precision := p.precision_

/-- Source `DetrendParameters::getIsRealTime`. -/
def getIsRealTime (p : DetrendParameters) : Bool := p.lrt_

/-- Source `DetrendParameters::isInitialized`. -/
def isInitialized (p : DetrendParameters) : Bool := p.linit_

end DetrendParameters

/-- The members of `Detrend`: the parameters, the fitted intercept `b0_` and
slope `b1_`, and the initialized flag. -/
structure Detrend where
  parms_ : DetrendParameters
  b0_ : ℚ
  b1_ : ℚ
  linit_ : Bool
  deriving DecidableEq, Repr

namespace Detrend

/-- Source `Detrend::clear`. -/
def clear (d : Detrend) : Detrend := ⟨d.parms_.clear, 0, 0, true⟩

/-- Source `Detrend::setParameters`: the return code and the module
afterwards. -/
def setParameters (d : Detrend) (parameters : DetrendParameters) : Int × Detrend :=
  let d := d.clear
  if parameters.isInitialized = false then (-1, d)
  else (0, ⟨parameters, d.b0_, d.b1_, d.linit_⟩)

/-- The constructor `Detrend(parameters)`: `clear()`, `setParameters`, and
`clear()` again if that failed. -/
def create (parameters : DetrendParameters) : Detrend :=
  let d : Detrend := Detrend.clear ⟨parameters, 0, 0, true⟩
  let r := d.setParameters parameters
  if r.1 ≠ 0 then r.2.clear else r.2

/-- The local `mean_x` of `computeLinearRegressionCoeffs_`:
`0.5*static_cast<double> (len64 - 1)` in 64-bit unsigned arithmetic. -/
def meanX (length : Int) : ℚ :=
  let len64 := toUInt64 length
  (1 / 2) * (((len64 + (2 ^ 64 - 1)) % 2 ^ 64 : Nat) : ℚ)

/-- The local `var_x` of `computeLinearRegressionCoeffs_`:
`static_cast<double> ((len64 - 1)*(2*(len64 - 1) + 1))/6.0 - mean_x*mean_x`,
the product taken in 64-bit unsigned arithmetic. -/
def varX (length : Int) : ℚ :=
  let len64 := toUInt64 length
  let m1 := (len64 + (2 ^ 64 - 1)) % 2 ^ 64
  (((m1 * ((2 * m1 + 1) % 2 ^ 64)) % 2 ^ 64 : Nat) : ℚ) / 6 - meanX length * meanX length

/-- Source `Detrend::computeLinearRegressionCoeffs_(length, pSrcY)` for
doubles: stores the slope `b1_` and the intercept `b0_` and returns 0.  The
array is taken to hold at least `length` samples. -/
def computeLinearRegressionCoeffs_ (d : Detrend) (length : Int) (pSrcY : List ℚ) :
    Int × Detrend :=
  let mean_x := meanX length
  let var_x := varX length
  let mean_y := ippsMean pSrcY length
  let cov_xy := accumulate (fun i => (i : ℚ) * pSrcY.getD i 0) length.toNat
  let cov_xy := cov_xy / (length : ℚ) - mean_x * mean_y
  let b1 := cov_xy / var_x
  let b0 := mean_y - b1 * mean_x
  (0, ⟨d.parms_, b0, b1, d.linit_⟩)

/-- Source `Detrend::removeTrend_(length, x, y)` for doubles:
`y[i] = x[i] - (b0_ + b1_*i)` for `i < length`; returns 0 and the array `y`
afterwards. -/
def removeTrend_ (d : Detrend) (length : Int) (x y : List ℚ) : Int × List ℚ :=
  (0, writeAt y 0
    ((List.range length.toNat).map (fun i => x.getD i 0 - (d.b0_ + d.b1_ * (i : ℚ)))))

/-- The body either overload of `Detrend::detrend` runs when the module's
precision is the overload's own: reset the coefficients, return 0 for
`nx ≤ 0`, log (only) the malformed cases, fit, remove the trend, return 0. -/
def detrendSamePrecision (d : Detrend) (nx : Int) (x y : List ℚ) : Int × Detrend × List ℚ :=
  let d : Detrend := ⟨d.parms_, 0, 0, d.linit_⟩
  if nx ≤ 0 then (0, d, y)
  else
    let c := d.computeLinearRegressionCoeffs_ nx x
    let r := c.2.removeTrend_ nx x y
    (0, c.2, r.2)

/-- Source `Detrend::detrend(nx, x, y)` for doubles; `none` as an array is a
null pointer, `none` as the result is the undefined behaviour of reading or
writing through one.  Returns the return code, the module and `y`
afterwards.  The block guarded by `nx < 2 || x == nullptr || y == nullptr`
only logs.  With single precision selected the float overload is called on
converted copies; its precision test then holds, so it runs
`detrendSamePrecision`, and conversions are the identity in exact
arithmetic. -/
def detrend (d : Detrend) (nx : Int) (x y : Option (List ℚ)) :
    Option (Int × Detrend × Option (List ℚ)) :=
  let d : Detrend := ⟨d.parms_, 0, 0, d.linit_⟩
  if nx ≤ 0 then some (0, d, y)
  else
    match x, y with
    | some xv, some yv =>
      if d.parms_.getPrecision = .DOUBLE then
        let c := d.computeLinearRegressionCoeffs_ nx xv
        let r := c.2.removeTrend_ nx xv yv
        some (0, c.2, some r.2)
      else
        let x32 := xv.take nx.toNat
        let y32 := List.replicate nx.toNat (0 : ℚ)
        let r := d.detrendSamePrecision nx x32 y32
        let yv := if r.1 = 0 then writeAt yv 0 (r.2.2.take nx.toNat) else yv
        some (r.1, r.2.1, some yv)
    | _, _ => none

/-- Source `Detrend::detrend(nx, x, y)` for floats, the mirror image of the
double overload. -/
def detrendFloat (d : Detrend) (nx : Int) (x y : Option (List ℚ)) :
    Option (Int × Detrend × Option (List ℚ)) :=
  let d : Detrend := ⟨d.parms_, 0, 0, d.linit_⟩
  if nx ≤ 0 then some (0, d, y)
  else
    match x, y with
    | some xv, some yv =>
      if d.parms_.getPrecision = .FLOAT then
        let c := d.computeLinearRegressionCoeffs_ nx xv
        let r := c.2.removeTrend_ nx xv yv
        some (0, c.2, some r.2)
      else
        let x64 := xv.take nx.toNat
        let y64 := List.replicate nx.toNat (0 : ℚ)
        let r := d.detrendSamePrecision nx x64 y64
        let yv := if r.1 = 0 then writeAt yv 0 (r.2.2.take nx.toNat) else yv
        some (r.1, r.2.1, some yv)
    | _, _ => none

end Detrend

/-! ## Least-squares quantities, as the statements name them -/

/-- The mean of the sample indices `0, …, n - 1`. -/
def indexMean (n : Nat) : ℚ := (∑ i ∈ Finset.range n, (i : ℚ)) / (n : ℚ)

/-- The mean of the first `n` samples of `x`. -/
def sampleMean (x : List ℚ) (n : Nat) : ℚ := (∑ i ∈ Finset.range n, x.getD i 0) / (n : ℚ)

/-- The population variance of the sample indices `0, …, n - 1`. -/
def indexVariance (n : Nat) : ℚ :=
  (∑ i ∈ Finset.range n, ((i : ℚ) - indexMean n) ^ 2) / (n : ℚ)

/-- The population covariance of the sample indices and the first `n`
samples of `x`. -/
def indexCovariance (x : List ℚ) (n : Nat) : ℚ :=
  (∑ i ∈ Finset.range n, ((i : ℚ) - indexMean n) * (x.getD i 0 - sampleMean x n)) / (n : ℚ)

/-- The signal `x[i] + (a + b*i)`, `i < x.length`. -/
def addLine (a b : ℚ) (x : List ℚ) : List ℚ :=
  (List.range x.length).map (fun i => x.getD i 0 + (a + b * (i : ℚ)))

/-- The output of detrending the whole signal `x` into a fresh array. -/
def Detrend.output (d : Detrend) (x : List ℚ) : List ℚ :=
  match d.detrend x.length (some x) (some (List.replicate x.length 0)) with
  | some (_, _, some y) => y
  | _ => []

/-! ## Waveform: construction, data and frequencies (`postProcessing.cpp`) -/

/-- How a `void` member function of `Waveform` ends: it completes its work,
it logs a warning (`RTSEIS_WARNMSG`) and returns without doing anything, it
logs an error (`RTSEIS_ERRMSG`) and returns, or it throws. -/
inductive Outcome where
  | done
  | warned
  | failed
  | thrown (e : Error)
  deriving DecidableEq, Repr

/-- The static `computeNyquistFrequencyFromSamplingPeriod(dt)`. -/
def computeNyquistFrequencyFromSamplingPeriod (dt : ℚ) : ℚ := 1 / (2 * dt)

/-- The static `computeNormalizedFrequencyFromSamplingPeriod(fc, dt)` for a
single corner frequency. -/
def computeNormalizedFrequencyFromSamplingPeriod (fc dt : ℚ) : Except Error ℚ :=
  let fnyq := computeNyquistFrequencyFromSamplingPeriod dt
  if fc < 0 ∨ fc > fnyq then .error .InvalidArgument
  else .ok (fc / fnyq)

/-- The static `computeNormalizedFrequencyFromSamplingPeriod(fc, dt)` for a
pair of band edges. -/
def computeNormalizedFrequencyFromSamplingPeriodPair (fc : ℚ × ℚ) (dt : ℚ) :
    Except Error (ℚ × ℚ) :=
  let fnyq := computeNyquistFrequencyFromSamplingPeriod dt
  if fc.1 < 0 then .error .InvalidArgument
  else if fc.1 ≥ fc.2 then .error .InvalidArgument
  else if fc.2 > fnyq then .error .InvalidArgument
  else .ok (fc.1 / fnyq, fc.2 / fnyq)

namespace Waveform

/-- The constructor `Waveform(dt)`: a fresh `WaveformImpl` (empty `x_` and
`y_`), rejected with `invalid_argument` when `dt ≤ 0`. -/
def create (dt : ℚ) : Except Error Waveform :=
  if dt ≤ 0 then .error .InvalidArgument
  else .ok ⟨[], [], dt⟩

/-- Source `Waveform::getNyquistFrequency`. -/
def getNyquistFrequency (w : Waveform) : ℚ := 1 / (2 * w.dt)

/-- Source `Waveform::getOutputLength`. -/
def getOutputLength (w : Waveform) : Nat := w.y_.length

/-- Source `WaveformImpl::setData(n, x)`: `x_.resize(n)` and a copy of `n`
samples. -/
def implSetData (w : Waveform) (n : Nat) (x : List ℚ) : Waveform :=
  ⟨writeAt (resize w.x_ n) 0 (x.take n), w.y_, w.dt⟩

/-- Source `Waveform::setData(n, x)`; `none` is a null pointer. -/
def setData (w : Waveform) (n : Nat) (x : Option (List ℚ)) : Outcome × Waveform :=
  match x with
  | none => (.thrown .InvalidArgument, w)
  | some xv =>
    if n < 1 then (.thrown .InvalidArgument, w)
    else (.done, w.implSetData n xv)

/-- Source `Waveform::setData(x)` for a vector. -/
def setDataVector (w : Waveform) (x : List ℚ) : Outcome × Waveform :=
  let n := x.length
  if n < 1 then (.thrown .InvalidArgument, w)
  else w.setData n (some x)

end Waveform

/-! ## IIR filter engines -/

/-- Modelled from the spec: the direct-form recursion of §4.2,
`y[i] = (b·recent inputs − a[1..]·recent outputs) / a[0]`, with the recent
inputs `xh` and outputs `yh` most recent first (`IIRFilter::apply` is not
among the sources). -/
def iirRun (b a : List ℚ) : List ℚ → List ℚ → List ℚ → List ℚ
  | _, _, [] => []
  | xh, yh, x :: xs =>
    let y := (dot b (x :: xh) - dot a.tail yh) / a.getD 0 0
    y :: iirRun b a ((x :: xh).take (b.length - 1)) ((y :: yh).take (a.length - 1)) xs

/-- Modelled from the spec: one batch (zero initial state) pass of the IIR
engine of §4.2. -/
def iirPass (b a x : List ℚ) : List ℚ :=
  iirRun b a (List.replicate (b.length - 1) 0) (List.replicate (a.length - 1) 0) x

/-- Modelled from the spec: `IIRFilter::initialize` of §4.2 validates that
numerator and denominator each have at least one coefficient. -/
def iirInit (b a : List ℚ) : Except Error Unit :=
  if b.length < 1 ∨ a.length < 1 then .error .InvalidArgument else .ok ()

/-- Modelled from the spec: `IIRIIRFilter::apply`, the zero-phase protocol of
§4.3 over the IIR engine: forward, reverse, forward, reverse, each pass from
a clean delay line. -/
def iiriirPass (b a x : List ℚ) : List ℚ := zeroPhase (iirPass b a) x

/-! ## Waveform: the processing operations (`postProcessing.cpp`) -/

/-- Source `ConvolutionMode` of the waveform interface. -/
inductive ConvolutionMode where
  | FULL
  | SAME
  | VALID
  deriving DecidableEq, Repr

/-- Source `ConvolutionImplementation` of the waveform interface. -/
inductive ConvolutionImplementation where
  | AUTO
  | DIRECT
  | FFT
  deriving DecidableEq, Repr

/-- The collaborators `Waveform` calls that are not among the sources, each
as the function of its arguments it computes.  `demeanApply len x y` and
`detrendApply len x y` stand for constructing the module with double
precision and calling `apply(len, x, y)`: the exception thrown, if any, and
what the array `y` holds afterwards.  `window` is the window generator of
`Taper::apply`; the three convolution routines return their error code and
the vector they leave in their output argument. -/
structure Collaborators where
  demeanApply : Nat → List ℚ → List ℚ → Option Error × List ℚ
  detrendApply : Nat → List ℚ → List ℚ → Option Error × List ℚ
  window : TaperType → Nat → List ℚ
  convolve : List ℚ → List ℚ → ConvolutionMode → ConvolutionImplementation → Int × List ℚ
  correlate : List ℚ → List ℚ → ConvolutionMode → ConvolutionImplementation → Int × List ℚ
  autocorrelate : List ℚ → ConvolutionMode → ConvolutionImplementation → Int × List ℚ

/-- The static `classifyConvolveMode`: every mode of the interface is
supported. -/
def classifyConvolveMode (mode : ConvolutionMode) : Except Error ConvolutionMode :=
  match mode with
  | .FULL => .ok .FULL
  | .SAME => .ok .SAME
  | .VALID => .ok .VALID

/-- The static `classifyConvolveImplementation`: every implementation of the
interface is supported. -/
def classifyConvolveImplementation (implementation : ConvolutionImplementation) :
    Except Error ConvolutionImplementation :=
  match implementation with
  | .AUTO => .ok .AUTO
  | .DIRECT => .ok .DIRECT
  | .FFT => .ok .FFT

namespace Waveform

/-- Source `Waveform::firFilter`, with the way the call ends and the object
it leaves behind (after a throw too). -/
def firFilterRun (w : Waveform) (taps : List ℚ) (lremovePhase : Bool) : Outcome × Waveform :=
  let len := w.getLengthOfInputSignal
  if len < 1 then (.warned, w)
  else if taps.length < 1 then (.thrown .InvalidArgument, w)
  else
    match FIRFilter.init taps .POST_PROCESSING with
    | .error e => (.thrown e, w)
    | .ok firFilter =>
      let w := w.resizeOutputData len
      if lremovePhase then
        let xwork := List.replicate len (0 : ℚ)
        let xwork := copy w.x_ xwork
        let r1 := firFilter.apply (xwork.take len)
        let y := writeAt w.y_ 0 r1.1
        let xwork := reverseInto y xwork
        let r2 := r1.2.apply (w.x_.take len)
        let y := writeAt y 0 r2.1
        let _xwork := xwork
        (.done, ⟨w.x_, reverse y, w.dt⟩)
      else
        let r := firFilter.apply (w.x_.take len)
        (.done, ⟨w.x_, writeAt w.y_ 0 r.1, w.dt⟩)

/-- Source `Waveform::sosFilter`, with the way the call ends and the object
it leaves behind. -/
def sosFilterRun (w : Waveform) (ns : Nat) (bs as : List ℚ) (lremovePhase : Bool) :
    Outcome × Waveform :=
  let len := w.getLengthOfInputSignal
  if len < 1 then (.warned, w)
  else if ns < 1 then (.thrown .InvalidArgument, w)
  else
    match SOSFilter.init ns bs as .POST_PROCESSING with
    | .error e => (.thrown e, w)
    | .ok sosFilter =>
      let w := w.resizeOutputData len
      if lremovePhase then
        let xwork := List.replicate len (0 : ℚ)
        let xwork := copy w.x_ xwork
        let r1 := sosFilter.apply (xwork.take len)
        let y := writeAt w.y_ 0 r1.1
        let xwork := reverseInto y xwork
        let r2 := r1.2.apply (w.x_.take len)
        let y := writeAt y 0 r2.1
        let _xwork := xwork
        (.done, ⟨w.x_, reverse y, w.dt⟩)
      else
        let r := sosFilter.apply (w.x_.take len)
        (.done, ⟨w.x_, writeAt w.y_ 0 r.1, w.dt⟩)

/-- Source `Waveform::iirFilter`: the direct-form engine without
`lremovePhase`, the zero-phase engine `IIRIIRFilter` with it. -/
def iirFilterRun (w : Waveform) (b a : List ℚ) (lremovePhase : Bool) : Outcome × Waveform :=
  let len := w.getLengthOfInputSignal
  if len < 1 then (.warned, w)
  else if b.length < 1 ∨ a.length < 1 then (.thrown .InvalidArgument, w)
  else
    match iirInit b a with
    | .error e => (.thrown e, w)
    | .ok _ =>
      if lremovePhase = false then
        let w := w.resizeOutputData len
        (.done, ⟨w.x_, writeAt w.y_ 0 (iirPass b a (w.x_.take len)), w.dt⟩)
      else
        let w := w.resizeOutputData len
        (.done, ⟨w.x_, writeAt w.y_ 0 (iiriirPass b a (w.x_.take len)), w.dt⟩)

/-- Source `Waveform::demean`: an exception of the demean module is caught
and thrown again as `invalid_argument`. -/
def demean (c : Collaborators) (w : Waveform) : Outcome × Waveform :=
  let len := w.getLengthOfInputSignal
  if len < 1 then (.warned, w)
  else
    let w := w.resizeOutputData len
    let r := c.demeanApply len w.x_ w.y_
    let w : Waveform := ⟨w.x_, writeAt w.y_ 0 r.2, w.dt⟩
    match r.1 with
    | some .InvalidArgument => (.thrown .InvalidArgument, w)
    | some e => (.thrown e, w)
    | none => (.done, w)

/-- Source `Waveform::detrend`. -/
def detrend (c : Collaborators) (w : Waveform) : Outcome × Waveform :=
  let len := w.getLengthOfInputSignal
  if len < 2 then (.warned, w)
  else
    let w := w.resizeOutputData len
    let r := c.detrendApply len w.x_ w.y_
    let w : Waveform := ⟨w.x_, writeAt w.y_ 0 r.2, w.dt⟩
    match r.1 with
    | some e => (.thrown e, w)
    | none => (.done, w)

/-- Source `Waveform::taper`. -/
def taper (c : Collaborators) (w : Waveform) (pct : ℚ) (window : TaperType) :
    Outcome × Waveform :=
  let len := w.getLengthOfInputSignal
  if len < 1 then (.warned, w)
  else
    match TaperParameters.create pct window .DOUBLE with
    | .error e => (.thrown e, w)
    | .ok parms =>
      match Taper.default.setParameters parms with
      | (.error e, _) => (.thrown e, w)
      | (.ok _, taper) =>
        let w := w.resizeOutputData len
        match Taper.apply c.window taper (len : Int) (some w.x_) (some w.y_) with
        | (.error e, _, some y) => (.thrown e, ⟨w.x_, y, w.dt⟩)
        | (.ok _, _, some y) => (.done, ⟨w.x_, y, w.dt⟩)
        | (.error e, _, none) => (.thrown e, w)
        | (.ok _, _, none) => (.done, w)

/-- Source `Waveform::convolve`. -/
def convolve (c : Collaborators) (w : Waveform) (s : List ℚ) (mode : ConvolutionMode)
    (implementation : ConvolutionImplementation) : Outcome × Waveform :=
  let nx := w.getLengthOfInputSignal
  let ny := s.length
  if nx < 1 then (.thrown .InvalidArgument, w)
  else if ny < 1 then (.thrown .InvalidArgument, w)
  else
    match classifyConvolveMode mode, classifyConvolveImplementation implementation with
    | .error e, _ => (.thrown e, w)
    | _, .error e => (.thrown e, w)
    | .ok convcorMode, .ok convcorImpl =>
      let r := c.convolve w.x_ s convcorMode convcorImpl
      if r.1 ≠ 0 then (.failed, ⟨w.x_, resize r.2 0, w.dt⟩)
      else (.done, ⟨w.x_, r.2, w.dt⟩)

/-- Source `Waveform::correlate`. -/
def correlate (c : Collaborators) (w : Waveform) (s : List ℚ) (mode : ConvolutionMode)
    (implementation : ConvolutionImplementation) : Outcome × Waveform :=
  let nx := w.getLengthOfInputSignal
  let ny := s.length
  if nx < 1 then (.thrown .InvalidArgument, w)
  else if ny < 1 then (.thrown .InvalidArgument, w)
  else
    match classifyConvolveMode mode, classifyConvolveImplementation implementation with
    | .error e, _ => (.thrown e, w)
    | _, .error e => (.thrown e, w)
    | .ok convcorMode, .ok convcorImpl =>
      let r := c.correlate w.x_ s convcorMode convcorImpl
      if r.1 ≠ 0 then (.failed, ⟨w.x_, resize r.2 0, w.dt⟩)
      else (.done, ⟨w.x_, r.2, w.dt⟩)

/-- Source `Waveform::autocorrelate`. -/
def autocorrelate (c : Collaborators) (w : Waveform) (mode : ConvolutionMode)
    (implementation : ConvolutionImplementation) : Outcome × Waveform :=
  let nx := w.getLengthOfInputSignal
  if nx < 1 then (.thrown .InvalidArgument, w)
  else
    match classifyConvolveMode mode, classifyConvolveImplementation implementation with
    | .error e, _ => (.thrown e, w)
    | _, .error e => (.thrown e, w)
    | .ok convcorMode, .ok convcorImpl =>
      let r := c.autocorrelate w.x_ convcorMode convcorImpl
      if r.1 ≠ 0 then (.failed, ⟨w.x_, resize r.2 0, w.dt⟩)
      else (.done, ⟨w.x_, r.2, w.dt⟩)

/-- The processing operations of `Waveform` with their arguments. -/
inductive Op where
  | firFilter (taps : List ℚ) (lremovePhase : Bool)
  | iirFilter (b a : List ℚ) (lremovePhase : Bool)
  | sosFilter (ns : Nat) (bs as : List ℚ) (lremovePhase : Bool)
  | demean
  | detrend
  | taper (pct : ℚ) (window : TaperType)
  | convolve (s : List ℚ) (mode : ConvolutionMode) (implementation : ConvolutionImplementation)
  | correlate (s : List ℚ) (mode : ConvolutionMode) (implementation : ConvolutionImplementation)
  | autocorrelate (mode : ConvolutionMode) (implementation : ConvolutionImplementation)

/-- One processing call on a waveform. -/
def run (c : Collaborators) (w : Waveform) : Op → Outcome × Waveform
  | .firFilter taps lremovePhase => w.firFilterRun taps lremovePhase
  | .iirFilter b a lremovePhase => w.iirFilterRun b a lremovePhase
  | .sosFilter ns bs as lremovePhase => w.sosFilterRun ns bs as lremovePhase
  | .demean => demean c w
  | .detrend => detrend c w
  | .taper pct window => taper c w pct window
  | .convolve s mode implementation => convolve c w s mode implementation
  | .correlate s mode implementation => correlate c w s mode implementation
  | .autocorrelate mode implementation => autocorrelate c w mode implementation

/-- The operations whose output has one sample per input sample: the
filters, demean, detrend and taper. -/
def Op.samplewise : Op → Bool
  | .firFilter _ _ => true
  | .iirFilter _ _ _ => true
  | .sosFilter _ _ _ _ => true
  | .demean => true
  | .detrend => true
  | .taper _ _ => true
  | _ => false

end Waveform

/-! ## Vector division (`vectorMath.cpp`) -/

/-- A complex number `std::complex<double>`, in exact arithmetic. -/
structure Cplx where
  re : ℚ
  im : ℚ
  deriving DecidableEq, Repr

namespace Cplx

/-- The complex number 0. -/
def zero : Cplx := ⟨0, 0⟩

/-- The complex product. -/
def mul (u v : Cplx) : Cplx := ⟨u.re * v.re - u.im * v.im, u.re * v.im + u.im * v.re⟩

/-- The complex quotient `n / d` of `std::divides<std::complex<double>>`. -/
def div (n d : Cplx) : Cplx :=
  ⟨(n.re * d.re + n.im * d.im) / (d.re * d.re + d.im * d.im),
   (n.im * d.re - n.re * d.im) / (d.re * d.re + d.im * d.im)⟩

end Cplx

/-- The status codes of the IPP primitives that matter here. -/
inductive IppStatus where
  | ippStsNoErr
  | ippStsDivByZeroErr
  | ippStsNullPtrErr
  | ippStsSizeErr
  deriving DecidableEq, Repr

/-- The vector after `v.resize(n)` for complex entries: truncated or padded
with zeros. -/
def resizeCplx (v : List Cplx) (n : Nat) : List Cplx :=
  v.take n ++ List.replicate (n - v.length) Cplx.zero

/-- Writes `src` at the start of the array `dst`, whose length is kept. -/
def overwriteCplx (dst src : List Cplx) : List Cplx :=
  (src ++ dst.drop src.length).take dst.length

/-- The behaviour Intel documents for `ippsDiv_64fc(pSrc1, pSrc2, pDst, len)`:
`pDst[i] = pSrc2[i] / pSrc1[i]`, and a status other than `ippStsNoErr` when a
divisor is zero (the library is not among the sources). -/
def ippsDivDocumented (pSrc1 pSrc2 : List Cplx) (len : Nat) : IppStatus × List Cplx :=
  (if Cplx.zero ∈ pSrc1.take len then IppStatus.ippStsDivByZeroErr else IppStatus.ippStsNoErr,
   List.zipWith Cplx.div (pSrc2.take len) (pSrc1.take len))

namespace VectorMath

/-- Source `VectorMath::divide(den, num, res)`: the return code and `res`
afterwards.  `intelCompiler` selects the `std::transform` branch of the
`#ifdef __INTEL_COMPILER`; `ippsDiv` is the IPP primitive `ippsDiv_64fc`
called by the other branch, with the status it reports and the values it
writes. -/
def divide (intelCompiler : Bool)
    (ippsDiv : List Cplx → List Cplx → Nat → IppStatus × List Cplx)
    (den num res : List Cplx) : Int × List Cplx :=
  let nDen : Int := den.length
  let nNum : Int := num.length
  if nNum ≠ nDen then (-1, res)
  else
    let res := resizeCplx res nNum.toNat
    if nNum ≤ 0 then (0, res)
    else if intelCompiler then
      (0, overwriteCplx res (List.zipWith Cplx.div (num.take nNum.toNat) den))
    else
      let r := ippsDiv den num nNum.toNat
      let res := overwriteCplx res r.2
      if r.1 ≠ .ippStsNoErr then (-1, res)
      else (0, res)

end VectorMath

deriving instance DecidableEq for Except

/-! ## Theorems -/

/-! ### Buffer and engine lemmas -/

theorem writeAt_zero_full (dst src : List ℚ) (h : src.length = dst.length) :
    writeAt dst 0 src = src := by
  simp [writeAt, h]

theorem resize_length (v : List ℚ) (n : Nat) : (resize v n).length = n := by
  simp [resize]; omega

theorem firWindows_length (taps : List ℚ) (n : Nat) (ext : List ℚ) :
    (firWindows taps n ext).length = n := by
  induction n generalizing ext with
  | zero => rfl
  | succ k ih => simp [firWindows, ih]

theorem biquadRun_length (b a : List ℚ) (s : BiquadState) (x : List ℚ) :
    (biquadRun b a s x).1.length = x.length := by
  induction x generalizing s with
  | nil => rfl
  | cons v vs ih => simp [biquadRun, ih]

theorem sosCascade_length (n : Nat) (bs as : List ℚ) (st : List BiquadState) (x : List ℚ) :
    (sosCascade n bs as st x).1.length = x.length := by
  induction n generalizing bs as st x with
  | zero => rfl
  | succ k ih => simp [sosCascade, ih, biquadRun_length]

theorem firPass_length (taps x : List ℚ) : (firPass taps x).length = x.length := by
  simp [firPass, FIRFilter.apply, firWindows_length]

theorem sosPass_length (ns : Nat) (bs as x : List ℚ) :
    (sosPass ns bs as x).length = x.length := by
  simp [sosPass, SOSFilter.apply, sosCascade_length]

theorem FIRFilter.fir_apply_batch (taps zi x : List ℚ) :
    FIRFilter.apply ⟨taps, .POST_PROCESSING, zi⟩ x =
      (firWindows taps x.length (List.replicate (taps.length - 1) 0 ++ x),
        ⟨taps, .POST_PROCESSING, zi⟩) := rfl

theorem SOSFilter.sos_apply_batch (ns : Nat) (bs as : List ℚ) (zi : List BiquadState) (x : List ℚ) :
    SOSFilter.apply ⟨ns, bs, as, .POST_PROCESSING, zi⟩ x =
      ((sosCascade ns bs as (List.replicate ns ⟨0, 0, 0, 0⟩) x).1,
        ⟨ns, bs, as, .POST_PROCESSING, zi⟩) := rfl

/-- What `Waveform::firFilter` leaves behind with `lremovePhase = true`: the
reversed single pass over the stored input. -/
theorem Waveform.firFilter_removePhase (w : Waveform) (taps : List ℚ)
    (hx : 1 ≤ w.x_.length) (ht : 1 ≤ taps.length) :
    w.firFilter taps true = .ok ⟨w.x_, (firPass taps w.x_).reverse, w.dt⟩ := by
  have h1 : ¬ w.x_.length < 1 := by omega
  have h2 : ¬ taps.length < 1 := by omega
  simp only [Waveform.firFilter, Waveform.getLengthOfInputSignal, FIRFilter.init, h1, h2,
    if_false, if_true, Waveform.resizeOutputData, FIRFilter.fir_apply_batch, Waveform.copy,
    Waveform.reverse, Waveform.reverseInto, firPass, List.take_length]
  simp [writeAt_zero_full, firWindows_length, resize_length]

/-- What `Waveform::sosFilter` leaves behind with `lremovePhase = true`. -/
theorem Waveform.sosFilter_removePhase (w : Waveform) (ns : Nat) (bs as : List ℚ)
    (hx : 1 ≤ w.x_.length) (hn : 1 ≤ ns) (hb : bs.length = 3 * ns) (ha : as.length = 3 * ns) :
    w.sosFilter ns bs as true = .ok ⟨w.x_, (sosPass ns bs as w.x_).reverse, w.dt⟩ := by
  have h1 : ¬ w.x_.length < 1 := by omega
  have h2 : ¬ ns < 1 := by omega
  have h3 : ¬ (ns < 1 ∨ bs.length ≠ 3 * ns ∨ as.length ≠ 3 * ns) := by omega
  have hi : SOSFilter.init ns bs as .POST_PROCESSING
      = .ok ⟨ns, bs, as, .POST_PROCESSING, List.replicate ns ⟨0, 0, 0, 0⟩⟩ := if_neg h3
  simp only [Waveform.sosFilter, Waveform.getLengthOfInputSignal, hi, h1, h2,
    if_false, if_true, Waveform.resizeOutputData, SOSFilter.sos_apply_batch, Waveform.copy,
    Waveform.reverse, Waveform.reverseInto, sosPass, List.take_length]
  simp [writeAt_zero_full, sosCascade_length, resize_length]

/-! ### Zero-phase filtering in `Waveform` -/

/-- C1: at the stored signal `[1, 0]`, with FIR taps `[1, 1]` and with the
single section `b = [1, 1, 0]`, `a = [1, 0, 0]`, `Waveform::firFilter` and
`Waveform::sosFilter` with `lremovePhase = true` leave `[1, 1]` in `y_`, the
reversed first pass, whereas reversing the second pass over the reversed
first pass gives `[2, 1]`: the second engine call reads `x_`, not `xwork`. -/
theorem removePhase_second_pass_reads_input :
    Waveform.firFilter ⟨[1, 0], [], 1⟩ [1, 1] true = .ok ⟨[1, 0], [1, 1], 1⟩
    ∧ zeroPhase (firPass [1, 1]) [1, 0] = [2, 1]
    ∧ Waveform.sosFilter ⟨[1, 0], [], 1⟩ 1 [1, 1, 0] [1, 0, 0] true = .ok ⟨[1, 0], [1, 1], 1⟩
    ∧ zeroPhase (sosPass 1 [1, 1, 0] [1, 0, 0]) [1, 0] = [2, 1] := by
  decide!

/-- C2 fails as stated: with taps `[1, 1]` (or the section `b = [1, 1, 0]`,
`a = [1, 0, 0]`) the zero-phase output on `[1, 0]` is `[1, 1]` but on the
reversed signal `[0, 1]` it is `[1, 0]`, which is not the reverse of
`[1, 1]`. -/
theorem removePhase_symmetry_fails :
    Waveform.firFilter ⟨[1, 0], [], 1⟩ [1, 1] true = .ok ⟨[1, 0], [1, 1], 1⟩
    ∧ Waveform.firFilter ⟨[0, 1], [], 1⟩ [1, 1] true = .ok ⟨[0, 1], [1, 0], 1⟩
    ∧ Waveform.sosFilter ⟨[1, 0], [], 1⟩ 1 [1, 1, 0] [1, 0, 0] true = .ok ⟨[1, 0], [1, 1], 1⟩
    ∧ Waveform.sosFilter ⟨[0, 1], [], 1⟩ 1 [1, 1, 0] [1, 0, 0] true = .ok ⟨[0, 1], [1, 0], 1⟩
    ∧ ([1, 0] : List ℚ) ≠ List.reverse [1, 1] := by
  decide!

/-- C2, amended: when one batch pass of the engine commutes with time
reversal on every signal of the length of `x` (as a pure gain does, and as
every engine does on signals of length 1), the zero-phase calls of
`Waveform::firFilter` and `Waveform::sosFilter` succeed on `x` and on
`rev x`, and the output on `rev x` is the time-reverse of the output on
`x`. -/
theorem removePhase_symmetry_of_commuting_pass :
    (∀ (taps x y0 y1 : List ℚ) (dt : ℚ), 1 ≤ x.length → 1 ≤ taps.length →
      (∀ z : List ℚ, z.length = x.length →
        firPass taps z.reverse = (firPass taps z).reverse) →
      (Waveform.firFilter ⟨x, y0, dt⟩ taps true).isOk = true
      ∧ (Waveform.firFilter ⟨x.reverse, y1, dt⟩ taps true).map (fun w => w.y_)
        = (Waveform.firFilter ⟨x, y0, dt⟩ taps true).map (fun w => w.y_.reverse))
    ∧ (∀ (ns : Nat) (bs as x y0 y1 : List ℚ) (dt : ℚ), 1 ≤ x.length → 1 ≤ ns →
      bs.length = 3 * ns → as.length = 3 * ns →
      (∀ z : List ℚ, z.length = x.length →
        sosPass ns bs as z.reverse = (sosPass ns bs as z).reverse) →
      (Waveform.sosFilter ⟨x, y0, dt⟩ ns bs as true).isOk = true
      ∧ (Waveform.sosFilter ⟨x.reverse, y1, dt⟩ ns bs as true).map (fun w => w.y_)
        = (Waveform.sosFilter ⟨x, y0, dt⟩ ns bs as true).map (fun w => w.y_.reverse)) := by
  refine ⟨?_, ?_⟩
  · intro taps x y0 y1 dt hx ht hc
    have e1 := Waveform.firFilter_removePhase ⟨x, y0, dt⟩ taps hx ht
    have e2 := Waveform.firFilter_removePhase ⟨x.reverse, y1, dt⟩ taps (by simpa using hx) ht
    simp only at e1 e2
    rw [e1, e2, hc x rfl]
    simp [Except.isOk, Except.toBool, Except.map]
  · intro ns bs as x y0 y1 dt hx hn hb ha hc
    have e1 := Waveform.sosFilter_removePhase ⟨x, y0, dt⟩ ns bs as hx hn hb ha
    have e2 := Waveform.sosFilter_removePhase ⟨x.reverse, y1, dt⟩ ns bs as
      (by simpa using hx) hn hb ha
    simp only at e1 e2
    rw [e1, e2, hc x rfl]
    simp [Except.isOk, Except.toBool, Except.map]

/-- C2, amended, at the pure gain 2 (taps `[2]`, section `b = [2, 0, 0]`,
`a = [1, 0, 0]`) and the signal `[1, 2, 3]`. -/
theorem removePhase_symmetry_of_commuting_pass_witness :
    ((Waveform.firFilter ⟨[1, 2, 3], [], 1⟩ [2] true).isOk = true
      ∧ (Waveform.firFilter ⟨List.reverse [1, 2, 3], [], 1⟩ [2] true).map (fun w => w.y_)
        = (Waveform.firFilter ⟨[1, 2, 3], [], 1⟩ [2] true).map (fun w => w.y_.reverse))
    ∧ ((Waveform.sosFilter ⟨[1, 2, 3], [], 1⟩ 1 [2, 0, 0] [1, 0, 0] true).isOk = true
      ∧ (Waveform.sosFilter ⟨List.reverse [1, 2, 3], [], 1⟩ 1 [2, 0, 0] [1, 0, 0] true).map
          (fun w => w.y_)
        = (Waveform.sosFilter ⟨[1, 2, 3], [], 1⟩ 1 [2, 0, 0] [1, 0, 0] true).map
          (fun w => w.y_.reverse)) :=
  ⟨removePhase_symmetry_of_commuting_pass.1 [2] [1, 2, 3] [] [] 1 (by decide) (by decide)
      (fun z hz => by
        match z, hz with
        | [a, b, c], _ => simp [firPass, FIRFilter.apply, firWindows, dot]),
   removePhase_symmetry_of_commuting_pass.2 1 [2, 0, 0] [1, 0, 0] [1, 2, 3] [] [] 1
      (by decide) (by decide) (by decide) (by decide)
      (fun z hz => by
        match z, hz with
        | [a, b, c], _ => simp [sosPass, SOSFilter.apply, sosCascade, biquadRun])⟩

/-! ### The FIR engine across chunks -/

theorem firWindows_add (taps : List ℚ) (n1 n2 : Nat) (ext : List ℚ) :
    firWindows taps (n1 + n2) ext = firWindows taps n1 ext ++ firWindows taps n2 (ext.drop n1) := by
  induction n1 generalizing ext with
  | zero => simp [firWindows]
  | succ k ih =>
    rw [Nat.add_right_comm]
    simp [firWindows, ih, List.drop_tail]

theorem firWindows_append_right (taps : List ℚ) (ht : 1 ≤ taps.length) (n : Nat)
    (ext more : List ℚ) (h : n + taps.length ≤ ext.length + 1) :
    firWindows taps n (ext ++ more) = firWindows taps n ext := by
  induction n generalizing ext with
  | zero => rfl
  | succ k ih =>
    cases ext with
    | nil => simp at h; omega
    | cons e es =>
      simp only [List.length_cons] at h
      have hk : taps.length ≤ (e :: es).length := by simp only [List.length_cons]; omega
      have hk2 : ((e :: es) ++ more).take taps.length = (e :: es).take taps.length :=
        List.take_append_of_le_length hk
      simp only [firWindows, hk2]
      simp only [List.cons_append, List.tail_cons]
      rw [ih es (by omega)]

/-- Streaming FIR engine: two consecutive calls give the outputs and the
final delay line of one call over the concatenation. -/
theorem FIRFilter.apply_append (taps zi x1 x2 : List ℚ) (ht : 1 ≤ taps.length)
    (hz : zi.length = taps.length - 1) :
    (FIRFilter.apply ⟨taps, .REAL_TIME, zi⟩ x1).1
        ++ ((FIRFilter.apply ⟨taps, .REAL_TIME, zi⟩ x1).2.apply x2).1
      = (FIRFilter.apply ⟨taps, .REAL_TIME, zi⟩ (x1 ++ x2)).1
    ∧ ((FIRFilter.apply ⟨taps, .REAL_TIME, zi⟩ x1).2.apply x2).2
      = (FIRFilter.apply ⟨taps, .REAL_TIME, zi⟩ (x1 ++ x2)).2 := by
  have hlen : x1.length ≤ (zi ++ x1).length := by simp
  have hd : (zi ++ (x1 ++ x2)).drop x1.length = (zi ++ x1).drop x1.length ++ x2 := by
    rw [← List.append_assoc, List.drop_append_of_le_length hlen]
  refine ⟨?_, ?_⟩
  · simp only [FIRFilter.apply, List.length_append]
    rw [firWindows_add, hd, ← List.append_assoc zi x1 x2,
      firWindows_append_right taps ht x1.length (zi ++ x1) x2 (by simp; omega)]
  · simp only [FIRFilter.apply, List.length_append]
    congr 1
    rw [← hd, List.drop_drop]

/-! ### The classic STA/LTA detector -/

theorem boxcar_length (n : Nat) : (boxcar n).length = n := by
  simp [boxcar]

theorem FIRFilter.init_boxcar (n : Nat) (hn : 1 ≤ n) (mode : ProcessingMode) :
    FIRFilter.init (boxcar n) mode = .ok ⟨boxcar n, mode, List.replicate (n - 1) 0⟩ := by
  have h : ¬ (boxcar n).length < 1 := by rw [boxcar_length]; omega
  rw [FIRFilter.init, if_neg h, boxcar_length]

theorem ClassicSTALTAParameters.create_valid (nsta nlta : Int) (lrt : Bool)
    (precision : Precision) (h1 : 1 ≤ nsta) (h2 : nsta < nlta) :
    ClassicSTALTAParameters.create nsta nlta lrt precision
      = (.ok (), ⟨nsta, nlta, 1024, precision, lrt, true⟩) := by
  have a : ¬ nsta < 1 := by omega
  have b : ¬ nlta ≤ nsta := by omega
  simp only [ClassicSTALTAParameters.create, a, b, if_false]

/-- The detector built from valid windows: two boxcar engines with zeroed
delay lines, READY. -/
theorem ClassicSTALTA.fresh_valid (nsta nlta : Int) (lrt : Bool) (precision : Precision)
    (h1 : 1 ≤ nsta) (h2 : nsta < nlta) :
    ClassicSTALTA.fresh nsta nlta lrt precision
      = ⟨⟨boxcar nsta.toNat, modeOf lrt, List.replicate (nsta.toNat - 1) 0⟩,
         ⟨boxcar nlta.toNat, modeOf lrt, List.replicate (nlta.toNat - 1) 0⟩,
         ⟨nsta, nlta, 1024, precision, lrt, true⟩, true⟩ := by
  have c : ¬ (nsta < 1 ∨ nlta ≤ nsta) := by omega
  simp only [ClassicSTALTA.fresh, ClassicSTALTAParameters.create_valid nsta nlta lrt precision h1 h2,
    ClassicSTALTA.init, c, if_false]
  rw [FIRFilter.init_boxcar nsta.toNat (by omega), FIRFilter.init_boxcar nlta.toNat (by omega)]

/-- C3: a detector initialized in real-time mode with windows
`1 ≤ nsta < nlta` is READY, and for non-empty pieces `x1`, `x2` the calls
`apply(x1)` then `apply(x2)` on it succeed with outputs whose concatenation
is the output of `apply(x1 ++ x2)` on a freshly initialized detector; the
detectors left behind are equal too. -/
theorem stalta_chunk_invariance (nsta nlta : Int) (precision : Precision) (x1 x2 : List ℚ)
    (h1 : 1 ≤ nsta) (h2 : nsta < nlta) (_hx1 : x1 ≠ []) (_hx2 : x2 ≠ []) :
    (ClassicSTALTA.fresh nsta nlta true precision).isInitialized = true
    ∧ ∃ y1 y2,
      ((ClassicSTALTA.fresh nsta nlta true precision).apply x1).1 = .ok y1
      ∧ (((ClassicSTALTA.fresh nsta nlta true precision).apply x1).2.apply x2).1 = .ok y2
      ∧ ((ClassicSTALTA.fresh nsta nlta true precision).apply (x1 ++ x2)).1 = .ok (y1 ++ y2)
      ∧ (((ClassicSTALTA.fresh nsta nlta true precision).apply x1).2.apply x2).2
        = ((ClassicSTALTA.fresh nsta nlta true precision).apply (x1 ++ x2)).2 := by
  rw [ClassicSTALTA.fresh_valid nsta nlta true precision h1 h2]
  have mo : modeOf true = ProcessingMode.REAL_TIME := rfl
  rw [mo]
  have hs := FIRFilter.apply_append (boxcar nsta.toNat) (List.replicate (nsta.toNat - 1) 0)
    (x1.map (fun v => v * v)) (x2.map (fun v => v * v))
    (by rw [boxcar_length]; omega) (by simp [boxcar_length])
  have hl := FIRFilter.apply_append (boxcar nlta.toNat) (List.replicate (nlta.toNat - 1) 0)
    (x1.map (fun v => v * v)) (x2.map (fun v => v * v))
    (by rw [boxcar_length]; omega) (by simp [boxcar_length])
  refine ⟨rfl, _, _, rfl, rfl, ?_, ?_⟩
  · simp only [ClassicSTALTA.apply, Bool.true_eq_false, if_false, List.map_append]
    rw [← hs.1, ← hl.1, List.zipWith_append]
    simp [FIRFilter.apply, firWindows_length]
  · simp only [ClassicSTALTA.apply, Bool.true_eq_false, if_false, List.map_append]
    rw [hs.2, hl.2]

/-- C3 at windows 2 and 3 with the pieces `[1, 2]` and `[3]`. -/
theorem stalta_chunk_invariance_witness :
    (ClassicSTALTA.fresh 2 3 true .DOUBLE).isInitialized = true
    ∧ ∃ y1 y2,
      ((ClassicSTALTA.fresh 2 3 true .DOUBLE).apply [1, 2]).1 = .ok y1
      ∧ (((ClassicSTALTA.fresh 2 3 true .DOUBLE).apply [1, 2]).2.apply [3]).1 = .ok y2
      ∧ ((ClassicSTALTA.fresh 2 3 true .DOUBLE).apply ([1, 2] ++ [3])).1 = .ok (y1 ++ y2)
      ∧ (((ClassicSTALTA.fresh 2 3 true .DOUBLE).apply [1, 2]).2.apply [3]).2
        = ((ClassicSTALTA.fresh 2 3 true .DOUBLE).apply ([1, 2] ++ [3])).2 :=
  stalta_chunk_invariance 2 3 .DOUBLE [1, 2] [3] (by decide) (by decide) (by decide) (by decide)

/-- C4: constructing the parameters, and initializing a detector from them,
with `nlta ≤ nsta` fails with `InvalidArgument` and leaves both
uninitialized; with `nsta ≤ 0` it fails with `InvalidArgument`; it succeeds
exactly when `1 ≤ nsta` and `nsta < nlta`, and then both are initialized.
The detector validates any parameter object the same way. -/
theorem stalta_window_invariant (nsta nlta : Int) (lrt : Bool) (precision : Precision) :
    (nlta ≤ nsta →
      (ClassicSTALTAParameters.create nsta nlta lrt precision).1 = .error .InvalidArgument
      ∧ (ClassicSTALTAParameters.create nsta nlta lrt precision).2.isInitialized = false
      ∧ (ClassicSTALTA.init (ClassicSTALTAParameters.create nsta nlta lrt precision).2).1
          = .error .InvalidArgument
      ∧ (ClassicSTALTA.fresh nsta nlta lrt precision).isInitialized = false)
    ∧ (nsta ≤ 0 →
      (ClassicSTALTAParameters.create nsta nlta lrt precision).1 = .error .InvalidArgument
      ∧ (ClassicSTALTA.init (ClassicSTALTAParameters.create nsta nlta lrt precision).2).1
          = .error .InvalidArgument)
    ∧ ((ClassicSTALTAParameters.create nsta nlta lrt precision).1 = .ok ()
        ↔ 1 ≤ nsta ∧ nsta < nlta)
    ∧ ((ClassicSTALTAParameters.create nsta nlta lrt precision).2.isInitialized = true
        ↔ 1 ≤ nsta ∧ nsta < nlta)
    ∧ ((ClassicSTALTA.init (ClassicSTALTAParameters.create nsta nlta lrt precision).2).1 = .ok ()
        ↔ 1 ≤ nsta ∧ nsta < nlta)
    ∧ ((ClassicSTALTA.fresh nsta nlta lrt precision).isInitialized = true
        ↔ 1 ≤ nsta ∧ nsta < nlta)
    ∧ (∀ p : ClassicSTALTAParameters,
        ((ClassicSTALTA.init p).1 = .ok () ↔ 1 ≤ p.nsta_ ∧ p.nsta_ < p.nlta_)
        ∧ ((ClassicSTALTA.init p).2.isInitialized = true ↔ 1 ≤ p.nsta_ ∧ p.nsta_ < p.nlta_)
        ∧ ((ClassicSTALTA.init p).1 = .ok () ∨ (ClassicSTALTA.init p).1 = .error .InvalidArgument)) := by
  have hinit : ∀ p : ClassicSTALTAParameters,
      ((ClassicSTALTA.init p).1 = .ok () ↔ 1 ≤ p.nsta_ ∧ p.nsta_ < p.nlta_)
      ∧ ((ClassicSTALTA.init p).2.isInitialized = true ↔ 1 ≤ p.nsta_ ∧ p.nsta_ < p.nlta_)
      ∧ ((ClassicSTALTA.init p).1 = .ok () ∨ (ClassicSTALTA.init p).1 = .error .InvalidArgument) := by
    intro p
    by_cases c : p.nsta_ < 1 ∨ p.nlta_ ≤ p.nsta_
    · have hc : ¬ (1 ≤ p.nsta_ ∧ p.nsta_ < p.nlta_) := by omega
      simp [ClassicSTALTA.init, c, hc, ClassicSTALTA.default, ClassicSTALTA.isInitialized]
    · have hc : 1 ≤ p.nsta_ ∧ p.nsta_ < p.nlta_ := by omega
      simp only [ClassicSTALTA.init, c, if_false]
      rw [FIRFilter.init_boxcar p.nsta_.toNat (by omega),
        FIRFilter.init_boxcar p.nlta_.toNat (by omega)]
      simp [hc, ClassicSTALTA.isInitialized]
  by_cases a : nsta < 1
  · have e : ClassicSTALTAParameters.create nsta nlta lrt precision
        = (.error .InvalidArgument, ClassicSTALTAParameters.default) := by
      simp only [ClassicSTALTAParameters.create, a, if_true]
    have hc : ¬ (1 ≤ nsta ∧ nsta < nlta) := by omega
    have hd := hinit ClassicSTALTAParameters.default
    have hi : ClassicSTALTA.init ClassicSTALTAParameters.default
        = (.error .InvalidArgument, ClassicSTALTA.default) := by decide
    simp only [ClassicSTALTA.fresh, e, hi]
    simp [hc, ClassicSTALTAParameters.default, ClassicSTALTAParameters.isInitialized,
      ClassicSTALTA.default, ClassicSTALTA.isInitialized]
    exact hinit
  · by_cases b : nlta ≤ nsta
    · have e : ClassicSTALTAParameters.create nsta nlta lrt precision
          = (.error .InvalidArgument, ClassicSTALTAParameters.default) := by
        simp only [ClassicSTALTAParameters.create, a, b, if_true, if_false]
      have hc : ¬ (1 ≤ nsta ∧ nsta < nlta) := by omega
      have hi : ClassicSTALTA.init ClassicSTALTAParameters.default
          = (.error .InvalidArgument, ClassicSTALTA.default) := by decide
      simp only [ClassicSTALTA.fresh, e, hi]
      simp [hc, ClassicSTALTAParameters.default, ClassicSTALTAParameters.isInitialized,
        ClassicSTALTA.default, ClassicSTALTA.isInitialized]
      exact hinit
    · have hc : 1 ≤ nsta ∧ nsta < nlta := by omega
      have e := ClassicSTALTAParameters.create_valid nsta nlta lrt precision hc.1 hc.2
      have hp := hinit ⟨nsta, nlta, 1024, precision, lrt, true⟩
      simp only [ClassicSTALTA.fresh, e]
      refine ⟨fun h => absurd h b, fun h => by omega, ?_, ?_, ?_, ?_, hinit⟩
      · simp [hc]
      · simp [hc, ClassicSTALTAParameters.isInitialized]
      · exact hp.1
      · exact hp.2.1

/-- C4 at the windows `nsta = 3`, `nlta = 3`: the long window does not
exceed the short one. -/
theorem stalta_window_invariant_witness :
    (ClassicSTALTAParameters.create 3 3 false .DOUBLE).1 = .error .InvalidArgument
    ∧ (ClassicSTALTAParameters.create 3 3 false .DOUBLE).2.isInitialized = false
    ∧ (ClassicSTALTA.init (ClassicSTALTAParameters.create 3 3 false .DOUBLE).2).1
        = .error .InvalidArgument
    ∧ (ClassicSTALTA.fresh 3 3 false .DOUBLE).isInitialized = false :=
  (stalta_window_invariant 3 3 false .DOUBLE).1 (by decide)

/-! ### Silent input -/

/-- A real-time detector that still carries a nonzero sample is not fed a
silent signal: with windows 2 and 3, after the sample `1`, three zeros give
`[3/2, 0, 0]`, the tail of what the stream `[1, 0, 0, 0]` gives. -/
theorem stalta_zero_input_after_signal :
    (((ClassicSTALTA.fresh 2 3 true .DOUBLE).apply [1]).2).isInitialized = true
    ∧ ((((ClassicSTALTA.fresh 2 3 true .DOUBLE).apply [1]).2).apply [0, 0, 0]).1
        = .ok [3 / 2, 0, 0] := by
  decide!

/-- C7: a default-constructed or cleared detector is not initialized; in
that state `apply`, `setInitialConditions` and `resetInitialConditions` fail
with `NotInitialized`, write no output and leave the detector as it was; an
uninitialized detector becomes initialized only through an `init` call that
succeeds, and `init` with valid windows does succeed. -/
theorem stalta_state_machine :
    ClassicSTALTA.default.isInitialized = false
    ∧ (∀ d : ClassicSTALTA, d.clear.isInitialized = false)
    ∧ (∀ (d : ClassicSTALTA) (x : List ℚ), d.isInitialized = false →
        d.step (.apply x) = (some .NotInitialized, none, d))
    ∧ (∀ (d : ClassicSTALTA) (zNum zDen : List ℚ), d.isInitialized = false →
        d.step (.setInitialConditions zNum zDen) = (some .NotInitialized, none, d))
    ∧ (∀ d : ClassicSTALTA, d.isInitialized = false →
        d.step .resetInitialConditions = (some .NotInitialized, none, d))
    ∧ (∀ (d : ClassicSTALTA) (op : ClassicSTALTA.Op), d.isInitialized = false →
        (d.step op).2.2.isInitialized = true →
        ∃ p, op = .init p ∧ (d.step op).1 = none ∧ 1 ≤ p.nsta_ ∧ p.nsta_ < p.nlta_)
    ∧ (∀ (d : ClassicSTALTA) (p : ClassicSTALTAParameters), 1 ≤ p.nsta_ → p.nsta_ < p.nlta_ →
        (d.step (.init p)).1 = none ∧ (d.step (.init p)).2.2.isInitialized = true) := by
  have hinit : ∀ p : ClassicSTALTAParameters, 1 ≤ p.nsta_ → p.nsta_ < p.nlta_ →
      ClassicSTALTA.init p
        = (.ok (), ⟨⟨boxcar p.nsta_.toNat, modeOf p.isRealTime_,
              List.replicate (p.nsta_.toNat - 1) 0⟩,
            ⟨boxcar p.nlta_.toNat, modeOf p.isRealTime_,
              List.replicate (p.nlta_.toNat - 1) 0⟩, p, true⟩) := by
    intro p h1 h2
    have c : ¬ (p.nsta_ < 1 ∨ p.nlta_ ≤ p.nsta_) := by omega
    simp only [ClassicSTALTA.init, c, if_false]
    rw [FIRFilter.init_boxcar p.nsta_.toNat (by omega),
      FIRFilter.init_boxcar p.nlta_.toNat (by omega)]
  refine ⟨rfl, fun _ => rfl, ?_, ?_, ?_, ?_, ?_⟩
  · intro d x h
    simp only [ClassicSTALTA.isInitialized] at h
    simp [ClassicSTALTA.step, ClassicSTALTA.apply, h]
  · intro d zNum zDen h
    simp only [ClassicSTALTA.isInitialized] at h
    simp [ClassicSTALTA.step, ClassicSTALTA.setInitialConditions, h]
  · intro d h
    simp only [ClassicSTALTA.isInitialized] at h
    simp [ClassicSTALTA.step, ClassicSTALTA.resetInitialConditions, h]
  · intro d op h hafter
    simp only [ClassicSTALTA.isInitialized] at h
    cases op with
    | init p =>
      by_cases c : p.nsta_ < 1 ∨ p.nlta_ ≤ p.nsta_
      · simp [ClassicSTALTA.step, ClassicSTALTA.init, c, ClassicSTALTA.default,
          ClassicSTALTA.isInitialized] at hafter
      · have h1 : 1 ≤ p.nsta_ := by omega
        have h2 : p.nsta_ < p.nlta_ := by omega
        refine ⟨p, rfl, ?_, h1, h2⟩
        simp [ClassicSTALTA.step, hinit p h1 h2]
    | apply x =>
      simp [ClassicSTALTA.step, ClassicSTALTA.apply, h, ClassicSTALTA.isInitialized] at hafter
    | setInitialConditions zNum zDen =>
      simp [ClassicSTALTA.step, ClassicSTALTA.setInitialConditions, h,
        ClassicSTALTA.isInitialized] at hafter
    | resetInitialConditions =>
      simp [ClassicSTALTA.step, ClassicSTALTA.resetInitialConditions, h,
        ClassicSTALTA.isInitialized] at hafter
    | clear =>
      simp [ClassicSTALTA.step, ClassicSTALTA.clear, ClassicSTALTA.default,
        ClassicSTALTA.isInitialized] at hafter
  · intro d p h1 h2
    simp [ClassicSTALTA.step, hinit p h1 h2, ClassicSTALTA.isInitialized]

/-- C7 on the default-constructed detector with the input `[1, 2]`. -/
theorem stalta_state_machine_witness :
    ClassicSTALTA.default.step (.apply [1, 2])
      = (some .NotInitialized, none, ClassicSTALTA.default) :=
  stalta_state_machine.2.2.1 ClassicSTALTA.default [1, 2] rfl

/-! ### Taper parameters and taper length -/

/-- C8: `setPercentage(pct)` throws `invalid_argument` exactly when
`pct < 0` or `pct > 100`; when it throws the object (hence the stored
percentage) is unchanged, and when it succeeds `getPercentage()` is `pct`
and nothing else changed. -/
theorem taper_setPercentage (p : TaperParameters) (pct : ℚ) :
    ((p.setPercentage pct).1 = .error .InvalidArgument ↔ pct < 0 ∨ pct > 100)
    ∧ ((p.setPercentage pct).1 = .ok () ↔ ¬ (pct < 0 ∨ pct > 100))
    ∧ ((p.setPercentage pct).1 = .error .InvalidArgument →
        (p.setPercentage pct).2 = p
        ∧ (p.setPercentage pct).2.getPercentage = p.getPercentage)
    ∧ ((p.setPercentage pct).1 = .ok () →
        (p.setPercentage pct).2.getPercentage = pct
        ∧ (p.setPercentage pct).2.getTaperType = p.getTaperType) := by
  by_cases c : pct < 0 ∨ pct > 100
  · simp [TaperParameters.setPercentage, c]
  · simp [TaperParameters.setPercentage, c, TaperParameters.getPercentage,
      TaperParameters.getTaperType]

/-- C8 at the default parameters with `pct = 101`. -/
theorem taper_setPercentage_witness :
    (TaperParameters.default.setPercentage 101).2 = TaperParameters.default
    ∧ (TaperParameters.default.setPercentage 101).2.getPercentage
        = TaperParameters.default.getPercentage :=
  (taper_setPercentage TaperParameters.default 101).2.2.1 (by decide!)

/-- C9: for a signal of `nx = 100` samples and the default percentage 5,
`Taper::apply` computes `npct = 500` and the taper length `m = 98`, the
whole signal, where 5 percent of the signal is `min(98, round(100*5/100)) = 5`:
the product `nx*pct` is not divided by 100. -/
theorem taper_length_not_percentage :
    TaperParameters.default.getPercentage = 5
    ∧ Taper.npct 100 TaperParameters.default.getPercentage = 500
    ∧ Taper.taperLength 100 TaperParameters.default.getPercentage = 98
    ∧ min ((100 : Int) - 2) (truncToInt ((100 : ℚ) * 5 / 100 + 1 / 2)) = 5 := by
  decide!

/-! ### The ratio bound -/

theorem dot_replicate (c : ℚ) (n : Nat) (w : List ℚ) :
    dot (List.replicate n c) w = c * (w.take n).sum := by
  induction n generalizing w with
  | zero => cases w <;> simp [dot]
  | succ k ih =>
    cases w with
    | nil => simp [List.replicate_succ, dot]
    | cons a as => simp [List.replicate_succ, dot, ih, mul_add]

theorem firWindows_getElem? (taps : List ℚ) (m : Nat) (ext : List ℚ) (i : Nat) (h : i < m) :
    (firWindows taps m ext)[i]? = some (dot taps.reverse ((ext.drop i).take taps.length)) := by
  induction m generalizing ext i with
  | zero => omega
  | succ k ih =>
    cases i with
    | zero => simp [firWindows]
    | succ j =>
      simp only [firWindows, List.getElem?_cons_succ]
      rw [ih ext.tail j (by omega), List.drop_tail]

theorem take_sum_nonneg (F : List ℚ) (hF : ∀ v ∈ F, 0 ≤ v) (k : Nat) : 0 ≤ (F.take k).sum :=
  List.sum_nonneg (fun v hv => hF v (List.mem_of_mem_take hv))

theorem window_sum_step (F : List ℚ) (hF : ∀ v ∈ F, 0 ≤ v) (j k : Nat) :
    ((F.drop (j + 1)).take k).sum ≤ ((F.drop j).take (k + 1)).sum := by
  rw [← List.drop_drop 1 j F]  
  cases hd : F.drop j with
  | nil => simp
  | cons a as =>
    have ha : 0 ≤ a := hF a (List.mem_of_mem_drop (by rw [hd]; simp))
    simp
    linarith

theorem window_sum_mono (E : List ℚ) (hE : ∀ v ∈ E, 0 ≤ v) (a d i : Nat) :
    ((E.drop i).take a).sum ≤ (((List.replicate d 0 ++ E).drop i).take (a + d)).sum := by
  induction d generalizing i with
  | zero => simp
  | succ k ih =>
    have hF : ∀ v ∈ List.replicate k (0 : ℚ) ++ E, 0 ≤ v := by
      intro v hv
      rcases List.mem_append.1 hv with h | h
      · rw [List.eq_of_mem_replicate h]
      · exact hE v h
    cases i with
    | zero =>
      have := ih 0
      simp only [List.drop_zero] at this
      simp only [List.replicate_succ, List.cons_append, List.drop_zero, ← Nat.add_assoc,
        List.take_succ_cons, List.sum_cons, zero_add]
      exact this
    | succ j =>
      simp only [List.replicate_succ, List.cons_append, List.drop_succ_cons, ← Nat.add_assoc]
      exact le_trans (ih (j + 1)) (window_sum_step _ hF j (a + k))

theorem stalta_window_le (ns nl : Nat) (h1 : 1 ≤ ns) (h2 : ns ≤ nl) (q : List ℚ)
    (hq : ∀ v ∈ q, 0 ≤ v) (i : Nat) :
    0 ≤ (((List.replicate (ns - 1) 0 ++ q).drop i).take ns).sum
    ∧ (((List.replicate (ns - 1) 0 ++ q).drop i).take ns).sum
      ≤ (((List.replicate (nl - 1) 0 ++ q).drop i).take nl).sum := by
  have hE : ∀ v ∈ List.replicate (ns - 1) (0 : ℚ) ++ q, 0 ≤ v := by
    intro v hv
    rcases List.mem_append.1 hv with h | h
    · rw [List.eq_of_mem_replicate h]
    · exact hq v h
  refine ⟨take_sum_nonneg _ (fun v hv => hE v (List.mem_of_mem_drop hv)) ns, ?_⟩
  have hm := window_sum_mono _ hE ns (nl - ns) i
  have e1 : List.replicate (nl - ns) (0 : ℚ) ++ (List.replicate (ns - 1) 0 ++ q)
      = List.replicate (nl - 1) 0 ++ q := by
    rw [← List.append_assoc, ← List.replicate_add]
    congr 2
    omega
  have e2 : ns + (nl - ns) = nl := by omega
  rw [e1, e2] at hm
  exact hm

theorem ratio_le_of_sums (ns nl : Nat) (h1 : 1 ≤ ns) (h2 : ns ≤ nl) (ws wl : ℚ)
    (h0 : 0 ≤ ws) (hle : ws ≤ wl) :
    0 ≤ staltaRatio (1 / (ns : ℚ) * ws) (1 / (nl : ℚ) * wl)
    ∧ staltaRatio (1 / (ns : ℚ) * ws) (1 / (nl : ℚ) * wl) ≤ (nl : ℚ) / (ns : ℚ) := by
  have hns : (0 : ℚ) < ns := by exact_mod_cast h1
  have hnl : (0 : ℚ) < nl := by exact_mod_cast (Nat.lt_of_lt_of_le h1 h2)
  unfold staltaRatio
  split
  · exact ⟨le_refl 0, by positivity⟩
  · rename_i hne
    have hwl : 0 < wl := by
      rcases lt_or_eq_of_le (le_trans h0 hle) with h | h
      · exact h
      · exact absurd (by rw [← h]; simp) hne
    refine ⟨by positivity, ?_⟩
    rw [div_le_div_iff₀ (by positivity) hns]
    have : 1 / (ns : ℚ) * ws * ns = ws := by field_simp
    rw [this]
    have : (nl : ℚ) * (1 / (nl : ℚ) * wl) = wl := by field_simp
    rw [this]
    exact hle

theorem boxcar_window (n : Nat) (w : List ℚ) :
    dot (boxcar n).reverse (w.take (boxcar n).length) = 1 / (n : ℚ) * (w.take n).sum := by
  simp [boxcar, dot_replicate, List.take_take]

/-- Batch STA/LTA traces of a nonnegative signal: the ratio lies between 0
and `nl / ns`, and `ns * STA ≤ nl * LTA` sample by sample. -/
theorem boxcar_ratio_bound (ns nl : Nat) (h1 : 1 ≤ ns) (h2 : ns ≤ nl) (q : List ℚ)
    (hq : ∀ v ∈ q, 0 ≤ v) :
    (∀ v ∈ List.zipWith staltaRatio (firPass (boxcar ns) q) (firPass (boxcar nl) q),
      0 ≤ v ∧ v ≤ (nl : ℚ) / (ns : ℚ))
    ∧ (∀ i, i < q.length →
      (ns : ℚ) * (firPass (boxcar ns) q).getD i 0 ≤ (nl : ℚ) * (firPass (boxcar nl) q).getD i 0) := by
  have hns : (0 : ℚ) < ns := by exact_mod_cast h1
  have hnl : (0 : ℚ) < nl := by exact_mod_cast (Nat.lt_of_lt_of_le h1 h2)
  have hS : ∀ i, i < q.length → (firPass (boxcar ns) q)[i]?
      = some (1 / (ns : ℚ) * (((List.replicate (ns - 1) 0 ++ q).drop i).take ns).sum) := by
    intro i hi
    simp only [firPass, FIRFilter.apply]
    rw [firWindows_getElem? _ _ _ _ hi, boxcar_window, boxcar_length]
  have hL : ∀ i, i < q.length → (firPass (boxcar nl) q)[i]?
      = some (1 / (nl : ℚ) * (((List.replicate (nl - 1) 0 ++ q).drop i).take nl).sum) := by
    intro i hi
    simp only [firPass, FIRFilter.apply]
    rw [firWindows_getElem? _ _ _ _ hi, boxcar_window, boxcar_length]
  refine ⟨?_, ?_⟩
  · intro v hv
    obtain ⟨i, hi⟩ := List.mem_iff_getElem?.1 hv
    have hlt : i < q.length := by
      have := (List.getElem?_eq_some_iff.1 hi).1
      simp [firPass_length] at this
      exact this
    rw [List.getElem?_zipWith, hS i hlt, hL i hlt] at hi
    simp only [Option.some.injEq] at hi
    rw [← hi]
    have hw := stalta_window_le ns nl h1 h2 q hq i
    exact ratio_le_of_sums ns nl h1 h2 _ _ hw.1 hw.2
  · intro i hi
    rw [List.getD_eq_getElem?_getD, List.getD_eq_getElem?_getD, hS i hi, hL i hi]
    simp only [Option.getD_some]
    have hw := stalta_window_le ns nl h1 h2 q hq i
    have e1 : (ns : ℚ) * (1 / (ns : ℚ) * (((List.replicate (ns - 1) 0 ++ q).drop i).take ns).sum)
        = (((List.replicate (ns - 1) 0 ++ q).drop i).take ns).sum := by field_simp
    have e2 : (nl : ℚ) * (1 / (nl : ℚ) * (((List.replicate (nl - 1) 0 ++ q).drop i).take nl).sum)
        = (((List.replicate (nl - 1) 0 ++ q).drop i).take nl).sum := by field_simp
    rw [e1, e2]
    exact hw.2

/-- C6: for valid windows `1 ≤ nsta < nlta` and every input `x`, `apply` on
a batch-mode detector succeeds with as many samples as `x`, each between 0
and `nlta / nsta`, and the short- and long-term averages of the squares
satisfy `nsta * STA[i] ≤ nlta * LTA[i]`; for `nsta = 3`, `nlta = 9` and 100
zeros, a unit impulse, 100 zeros the trace is 100 zeros, three samples equal
to 3, then 98 zeros. -/
theorem stalta_ratio_bound :
    (∀ (nsta nlta : Int) (precision : Precision) (x : List ℚ), 1 ≤ nsta → nsta < nlta →
      ∃ y, ((ClassicSTALTA.fresh nsta nlta false precision).apply x).1 = .ok y
        ∧ y.length = x.length
        ∧ (∀ v ∈ y, 0 ≤ v ∧ v ≤ (nlta : ℚ) / (nsta : ℚ))
        ∧ (∀ i, i < x.length →
            (nsta : ℚ) * (firPass (boxcar nsta.toNat) (x.map (fun v => v * v))).getD i 0
              ≤ (nlta : ℚ) * (firPass (boxcar nlta.toNat) (x.map (fun v => v * v))).getD i 0))
    ∧ ((ClassicSTALTA.fresh 3 9 false .DOUBLE).apply
          (List.replicate 100 0 ++ [1] ++ List.replicate 100 0)).1
        = .ok (List.replicate 100 0 ++ [3, 3, 3] ++ List.replicate 98 0) := by
  refine ⟨?_, by decide!⟩
  intro nsta nlta precision x h1 h2
  have hq : ∀ v ∈ x.map (fun v => v * v), 0 ≤ v := by
    intro v hv
    obtain ⟨u, _, hu⟩ := List.mem_map.1 hv
    rw [← hu]
    exact mul_self_nonneg u
  have cs : ((nsta.toNat : ℕ) : ℚ) = (nsta : ℚ) := by
    have := Int.toNat_of_nonneg (show 0 ≤ nsta by omega)
    exact_mod_cast congrArg (fun z : ℤ => (z : ℚ)) this
  have cl : ((nlta.toNat : ℕ) : ℚ) = (nlta : ℚ) := by
    have := Int.toNat_of_nonneg (show 0 ≤ nlta by omega)
    exact_mod_cast congrArg (fun z : ℤ => (z : ℚ)) this
  have hb := boxcar_ratio_bound nsta.toNat nlta.toNat (by omega) (by omega) _ hq
  rw [cs, cl] at hb
  refine ⟨List.zipWith staltaRatio (firPass (boxcar nsta.toNat) (x.map (fun v => v * v)))
    (firPass (boxcar nlta.toNat) (x.map (fun v => v * v))), ?_, ?_, hb.1, ?_⟩
  · rw [ClassicSTALTA.fresh_valid nsta nlta false precision h1 h2]
    rfl
  · simp [firPass_length]
  · intro i hi
    exact hb.2 i (by simpa using hi)

/-- C6 at windows 3 and 9 and the input `[1, 2]`. -/
theorem stalta_ratio_bound_witness :
    ∃ y, ((ClassicSTALTA.fresh 3 9 false .DOUBLE).apply [1, 2]).1 = .ok y
      ∧ y.length = [(1 : ℚ), 2].length
      ∧ (∀ v ∈ y, 0 ≤ v ∧ v ≤ ((9 : Int) : ℚ) / ((3 : Int) : ℚ))
      ∧ (∀ i, i < [(1 : ℚ), 2].length →
          ((3 : Int) : ℚ) * (firPass (boxcar (3 : Int).toNat)
              ([(1 : ℚ), 2].map (fun v => v * v))).getD i 0
            ≤ ((9 : Int) : ℚ) * (firPass (boxcar (9 : Int).toNat)
              ([(1 : ℚ), 2].map (fun v => v * v))).getD i 0) :=
  stalta_ratio_bound.1 3 9 .DOUBLE [1, 2] (by decide) (by decide)

/-! ### Taper end points -/

theorem writeAt_length (dst : List ℚ) (off : Nat) (src : List ℚ) :
    (writeAt dst off src).length = dst.length := by
  simp only [writeAt, List.length_take, List.length_append, List.length_drop]
  omega

theorem writeAt_getElem?_before (dst : List ℚ) (off : Nat) (src : List ℚ) (i : Nat)
    (h1 : i < off) (h2 : i < dst.length) : (writeAt dst off src)[i]? = dst[i]? := by
  simp only [writeAt, List.getElem?_take, h2, if_true, List.append_assoc]
  rw [List.getElem?_append_left (by simp; omega), List.getElem?_take, if_pos h1]

theorem writeAt_getElem?_inside (dst : List ℚ) (off : Nat) (src : List ℚ) (i : Nat)
    (h0 : off ≤ i) (h1 : i < off + src.length) (h2 : i < dst.length) :
    (writeAt dst off src)[i]? = src[i - off]? := by
  have hl : (dst.take off).length = off := by simp; omega
  simp only [writeAt, List.getElem?_take, h2, if_true, List.append_assoc]
  rw [List.getElem?_append_right (by omega), hl, List.getElem?_append_left (by omega)]

theorem taper_core (win x y B : List ℚ) (N M P : Nat) (hx : x.length = N) (hy : y.length = N)
    (hw : win.length = M) (hP1 : 1 ≤ P) (hP2 : 2 * P ≤ M + 1) (hM : M + 2 ≤ N) :
    (writeAt (writeAt (writeAt y 0 (Taper.ippsMul (0 :: win ++ [0]) x P)) P B) (N - P)
      (Taper.ippsMul ((0 :: win ++ [0]).drop (M + 2 - P)) (x.drop (N - P)) P))[0]? = some 0
    ∧ (writeAt (writeAt (writeAt y 0 (Taper.ippsMul (0 :: win ++ [0]) x P)) P B) (N - P)
      (Taper.ippsMul ((0 :: win ++ [0]).drop (M + 2 - P)) (x.drop (N - P)) P))[N - 1]? = some 0 := by
  have hwl : (0 :: win ++ [0]).length = M + 2 := by simp [hw]
  have hA : (Taper.ippsMul (0 :: win ++ [0]) x P).length = P := by
    simp [Taper.ippsMul, hx, hw]; omega
  have hC : (Taper.ippsMul ((0 :: win ++ [0]).drop (M + 2 - P)) (x.drop (N - P)) P).length = P := by
    simp [Taper.ippsMul, hx, hw]; omega
  refine ⟨?_, ?_⟩
  · rw [writeAt_getElem?_before _ _ _ 0 (by omega) (by simp [writeAt_length, hy]; omega),
      writeAt_getElem?_before _ _ _ 0 (by omega) (by simp [writeAt_length, hy]; omega),
      writeAt_getElem?_inside _ _ _ 0 (by omega) (by omega) (by omega)]
    obtain ⟨P', rfl⟩ : ∃ P', P = P' + 1 := ⟨P - 1, by omega⟩
    cases x with
    | nil => simp at hx; omega
    | cons x0 xs => simp [Taper.ippsMul]
  · rw [writeAt_getElem?_inside _ _ _ (N - 1) (by omega) (by omega)
      (by simp [writeAt_length, hy]; omega)]
    have e : N - 1 - (N - P) = P - 1 := by omega
    rw [e]
    simp only [Taper.ippsMul, List.getElem?_zipWith, List.getElem?_take, List.getElem?_drop]
    have hp : P - 1 < P := by omega
    have e1 : M + 2 - P + (P - 1) = (0 :: win).length := by simp [hw]; omega
    have e2 : N - P + (P - 1) = N - 1 := by omega
    simp only [hp, if_true, e2]
    rw [e1]
    have hxl : N - 1 < x.length := by omega
    rw [List.getElem?_eq_getElem hxl]
    have : (0 :: win ++ [0])[(0 :: win).length]? = some 0 := by
      rw [List.getElem?_append_right (le_refl _)]
      simp
    rw [this]
    simp

/-- C10: for a signal of length `3 ≤ nx < 2^31` (`nx` is an `int`), a taper
length `m ≥ 1` as `Taper::apply` computes it (so `nx*pct + 0.5` did not
overflow the `int`) and a window generator returning `m` weights,
`Taper::apply` succeeds and the first and the last output sample are exactly
0.  `winLen0 = -1` holds for every module the interface can produce
(constructors, `clear` and `setParameters` set it, `apply` keeps it), so the
window is designed and extended with a leading and a trailing 0 on every
call. -/
theorem taper_endpoints_zero (window : TaperType → Nat → List ℚ) (t : Taper) (nx : Int)
    (x y : List ℚ) (hnx : 3 ≤ nx) (_hint : nx < 2 ^ 31) (hx : (x.length : Int) = nx)
    (hy : (y.length : Int) = nx) (hwin : t.winLen0 = -1)
    (hm : 1 ≤ Taper.taperLength nx t.parms.getPercentage)
    (hgen : (window t.parms.getTaperType
        (Taper.taperLength nx t.parms.getPercentage).toNat).length
      = (Taper.taperLength nx t.parms.getPercentage).toNat) :
    ∃ t1 y1, Taper.apply window t nx (some x) (some y) = (.ok (), t1, some y1)
      ∧ t1.winLen0 = -1
      ∧ y1.length = x.length ∧ y1.head? = some 0 ∧ y1.getLast? = some 0 := by
  generalize hmdef : Taper.taperLength nx t.parms.getPercentage = m at hm hgen
  have hm2 : m ≤ nx - 2 := by rw [← hmdef]; exact min_le_left _ _
  have hdiv : (m + 1).tdiv 2 = (m + 1) / 2 := Int.tdiv_eq_ediv (by omega) (by omega)
  have c1 : ¬ nx ≤ 0 := by omega
  have c2 : ¬ nx < 3 := by omega
  have c3 : t.winLen0 ≠ m := by rw [hwin]; omega
  have c4 : nx - (m + 1) / 2 - (m + 1) / 2 > 0 := by omega
  have c5 : ¬ (t.winLen0 ≠ m ∧ m + 2 < 0) := by omega
  have i1 : (nx - (m + 1) / 2).toNat = x.length - ((m + 1) / 2).toNat := by omega
  have i2 : (m + 2 - (m + 1) / 2).toNat = m.toNat + 2 - ((m + 1) / 2).toNat := by omega
  have core := taper_core (window t.parms.getTaperType m.toNat) x y
    ((x.drop ((m + 1) / 2).toNat).take (nx - (m + 1) / 2 - (m + 1) / 2).toNat)
    x.length m.toNat ((m + 1) / 2).toNat rfl (by omega) hgen (by omega) (by omega) (by omega)
  simp only [Taper.apply, c1, c2, if_false, hmdef, hdiv, c4, if_true, if_pos c3, i1, i2,
    if_neg c5]
  refine ⟨_, _, rfl, hwin, ?_, ?_, ?_⟩
  · simp only [writeAt_length]
    omega
  · rw [List.head?_eq_getElem?]
    exact core.1
  · rw [List.getLast?_eq_getElem?]
    simp only [writeAt_length]
    have : y.length = x.length := by omega
    rw [this]
    exact core.2

/-- C10 at the default module, the signal `[1, 2, 3, 4, 5]` and a generator
of constant weights `1/2`. -/
theorem taper_endpoints_zero_witness :
    ∃ t1 y1, Taper.apply (fun _ k => List.replicate k (1 / 2)) Taper.default 5
        (some [1, 2, 3, 4, 5]) (some [9, 9, 9, 9, 9]) = (.ok (), t1, some y1)
      ∧ t1.winLen0 = -1
      ∧ y1.length = [(1 : ℚ), 2, 3, 4, 5].length ∧ y1.head? = some 0 ∧ y1.getLast? = some 0 :=
  taper_endpoints_zero (fun _ k => List.replicate k (1 / 2)) Taper.default 5
    [1, 2, 3, 4, 5] [9, 9, 9, 9, 9] (by decide) (by decide) (by decide) (by decide) rfl
    (by decide!) (by simp)

/-- Where `nx*pct + 0.5` does not fit an `int`: for `nx = 21474837` and
`pct = 100` the conversion gives `INT_MIN`, the taper length is `INT_MIN`,
`w8.reserve(m+2)` throws the length error and `y` is left as it was. -/
theorem Taper.apply_overflow (window : TaperType → Nat → List ℚ) (t : Taper) (x y : List ℚ)
    (hp : t.parms.getPercentage = 100) (hw : t.winLen0 = -1) :
    Taper.npct 21474837 100 = -2 ^ 31
    ∧ Taper.taperLength 21474837 100 = -2 ^ 31
    ∧ Taper.apply window t 21474837 (some x) (some y) = (.error .LengthError, t, some y) := by
  have e1 : Taper.npct 21474837 100 = -2 ^ 31 := by decide!
  have e2 : Taper.taperLength 21474837 100 = -2 ^ 31 := by decide!
  refine ⟨e1, e2, ?_⟩
  have c1 : ¬ ((21474837 : Int) ≤ 0) := by decide
  have c2 : ¬ ((21474837 : Int) < 3) := by decide
  have c3 : t.winLen0 ≠ -2 ^ 31 ∧ (-2 ^ 31 : Int) + 2 < 0 := by
    rw [hw]; decide
  simp only [Taper.apply, c1, c2, if_false, hp, e2, if_pos c3]

/-! ### Detrending -/

theorem accumulate_eq_sum (f : Nat → ℚ) (n : Nat) :
    accumulate f n = ∑ i ∈ Finset.range n, f i := by
  induction n with
  | zero => rfl
  | succ k ih => rw [accumulate, ih, Finset.sum_range_succ]

theorem sum_range_index (n : Nat) :
    ∑ i ∈ Finset.range n, (i : ℚ) = (n : ℚ) * ((n : ℚ) - 1) / 2 := by
  induction n with
  | zero => simp
  | succ k ih => rw [Finset.sum_range_succ, ih]; push_cast; ring

theorem sum_range_index_sq (n : Nat) :
    ∑ i ∈ Finset.range n, (i : ℚ) * (i : ℚ)
      = ((n : ℚ) - 1) * (n : ℚ) * (2 * (n : ℚ) - 1) / 6 := by
  induction n with
  | zero => simp
  | succ k ih => rw [Finset.sum_range_succ, ih]; push_cast; ring

theorem toUInt64_natCast (n : Nat) (h : n < 2 ^ 31) : toUInt64 (n : Int) = n := by
  unfold toUInt64
  omega

theorem Detrend.meanX_closed (n : Nat) (h1 : 1 ≤ n) (h : n < 2 ^ 31) :
    Detrend.meanX (n : Int) = ((n : ℚ) - 1) / 2 := by
  have e : (n + (2 ^ 64 - 1)) % 2 ^ 64 = n - 1 := by omega
  simp only [Detrend.meanX, toUInt64_natCast n h, e]
  rw [Nat.cast_sub h1]
  push_cast
  ring

theorem Detrend.varX_closed (n : Nat) (h1 : 1 ≤ n) (h : n < 2 ^ 31) :
    Detrend.varX (n : Int) = ((n : ℚ) ^ 2 - 1) / 12 := by
  have e : (n + (2 ^ 64 - 1)) % 2 ^ 64 = n - 1 := by omega
  have e2 : (2 * (n - 1) + 1) % 2 ^ 64 = 2 * (n - 1) + 1 := by omega
  have e3 : ((n - 1) * (2 * (n - 1) + 1)) % 2 ^ 64 = (n - 1) * (2 * (n - 1) + 1) := by
    apply Nat.mod_eq_of_lt
    have a : n - 1 < 2 ^ 31 := by omega
    have b : 2 * (n - 1) + 1 < 2 ^ 32 := by omega
    calc (n - 1) * (2 * (n - 1) + 1) < 2 ^ 31 * 2 ^ 32 := Nat.mul_lt_mul'' a b
      _ < 2 ^ 64 := by norm_num
  simp only [Detrend.varX, Detrend.meanX_closed n h1 h, toUInt64_natCast n h, e, e2, e3]
  rw [Nat.cast_mul, Nat.cast_add, Nat.cast_mul, Nat.cast_sub h1]
  push_cast
  ring

theorem map_range_getD (f : Nat → ℚ) (n i : Nat) (h : i < n) :
    ((List.range n).map f).getD i 0 = f i := by
  rw [List.getD_eq_getElem?_getD, List.getElem?_map, List.getElem?_range h]
  rfl

theorem indexMean_closed (n : Nat) (h1 : 1 ≤ n) : indexMean n = ((n : ℚ) - 1) / 2 := by
  have hn : (n : ℚ) ≠ 0 := by exact_mod_cast (show n ≠ 0 by omega)
  rw [indexMean, sum_range_index]
  field_simp
  ring

theorem indexVariance_closed (n : Nat) (h1 : 1 ≤ n) :
    indexVariance n = ((n : ℚ) ^ 2 - 1) / 12 := by
  have hn : (n : ℚ) ≠ 0 := by exact_mod_cast (show n ≠ 0 by omega)
  have e : ∀ i : Nat, ((i : ℚ) - indexMean n) ^ 2
      = (i : ℚ) * (i : ℚ) - 2 * indexMean n * (i : ℚ) + indexMean n ^ 2 := by
    intro i; ring
  simp only [indexVariance, e]
  rw [Finset.sum_add_distrib, Finset.sum_sub_distrib, ← Finset.mul_sum, Finset.sum_const,
    Finset.card_range, sum_range_index, sum_range_index_sq, indexMean_closed n h1]
  simp only [nsmul_eq_mul]
  field_simp
  ring

theorem indexCovariance_expand (x : List ℚ) (n : Nat) (h1 : 1 ≤ n) :
    indexCovariance x n
      = (∑ i ∈ Finset.range n, (i : ℚ) * x.getD i 0) / (n : ℚ)
        - ((n : ℚ) - 1) / 2 * ((∑ i ∈ Finset.range n, x.getD i 0) / (n : ℚ)) := by
  have hn : (n : ℚ) ≠ 0 := by exact_mod_cast (show n ≠ 0 by omega)
  have e : ∀ i : Nat, ((i : ℚ) - indexMean n) * (x.getD i 0 - sampleMean x n)
      = (i : ℚ) * x.getD i 0 - sampleMean x n * (i : ℚ) - indexMean n * x.getD i 0
        + indexMean n * sampleMean x n := by
    intro i; ring
  simp only [indexCovariance, e]
  rw [Finset.sum_add_distrib, Finset.sum_sub_distrib, Finset.sum_sub_distrib, ← Finset.mul_sum,
    ← Finset.mul_sum, Finset.sum_const, Finset.card_range, sum_range_index,
    indexMean_closed n h1]
  simp only [nsmul_eq_mul, sampleMean]
  field_simp
  ring

/-- The coefficients stored by `computeLinearRegressionCoeffs_`, for
`1 ≤ n < 2^31` samples. -/
theorem Detrend.coeffs_eq (d : Detrend) (x : List ℚ) (n : Nat) (h1 : 1 ≤ n)
    (h : n < 2 ^ 31) :
    (d.computeLinearRegressionCoeffs_ (n : Int) x).1 = 0
    ∧ (d.computeLinearRegressionCoeffs_ (n : Int) x).2.parms_ = d.parms_
    ∧ (d.computeLinearRegressionCoeffs_ (n : Int) x).2.b1_
        = indexCovariance x n / (((n : ℚ) ^ 2 - 1) / 12)
    ∧ (d.computeLinearRegressionCoeffs_ (n : Int) x).2.b0_
        = sampleMean x n
          - indexCovariance x n / (((n : ℚ) ^ 2 - 1) / 12) * (((n : ℚ) - 1) / 2) := by
  simp only [Detrend.computeLinearRegressionCoeffs_, Detrend.meanX_closed n h1 h,
    Detrend.varX_closed n h1 h, ippsMean, accumulate_eq_sum, Int.toNat_ofNat, Int.cast_natCast,
    indexCovariance_expand x n h1, sampleMean]
  exact ⟨trivial, trivial, trivial, trivial⟩

/-- Residuals of a least-squares line: their sum and their index-weighted
sum vanish. -/
theorem residual_sums (f : Nat → ℚ) (n : Nat) (h2 : 2 ≤ n) (b0 b1 : ℚ)
    (hb1 : b1 = ((∑ i ∈ Finset.range n, (i : ℚ) * f i) / (n : ℚ)
        - ((n : ℚ) - 1) / 2 * ((∑ i ∈ Finset.range n, f i) / (n : ℚ)))
          / (((n : ℚ) ^ 2 - 1) / 12))
    (hb0 : b0 = (∑ i ∈ Finset.range n, f i) / (n : ℚ) - b1 * (((n : ℚ) - 1) / 2)) :
    ∑ i ∈ Finset.range n, (f i - (b0 + b1 * (i : ℚ))) = 0
    ∧ ∑ i ∈ Finset.range n, (i : ℚ) * (f i - (b0 + b1 * (i : ℚ))) = 0 := by
  have hn : (n : ℚ) ≠ 0 := by exact_mod_cast (show n ≠ 0 by omega)
  have hn2 : (2 : ℚ) ≤ n := by exact_mod_cast h2
  have hv : (n : ℚ) ^ 2 - 1 ≠ 0 := by nlinarith
  have e2 : ∀ i : Nat, (i : ℚ) * (f i - (b0 + b1 * (i : ℚ)))
      = (i : ℚ) * f i - (b0 * (i : ℚ) + b1 * ((i : ℚ) * (i : ℚ))) := by
    intro i; ring
  refine ⟨?_, ?_⟩
  · rw [Finset.sum_sub_distrib, Finset.sum_add_distrib, Finset.sum_const, Finset.card_range,
      ← Finset.mul_sum, sum_range_index, hb0]
    simp only [nsmul_eq_mul]
    field_simp
    ring
  · simp only [e2]
    rw [Finset.sum_sub_distrib, Finset.sum_add_distrib, ← Finset.mul_sum, ← Finset.mul_sum,
      sum_range_index, sum_range_index_sq, hb0, hb1]
    field_simp
    ring

/-- What `Detrend::detrend` returns on `n ≥ 1` samples with arrays of `n`
elements, whichever precision is selected. -/
theorem Detrend.detrend_eq (d : Detrend) (x y : List ℚ) (n : Nat) (h1 : 1 ≤ n)
    (hx : x.length = n) (hy : y.length = n) :
    d.detrend (n : Int) (some x) (some y)
      = some (0,
          (Detrend.computeLinearRegressionCoeffs_ ⟨d.parms_, 0, 0, d.linit_⟩ (n : Int) x).2,
          some ((List.range n).map (fun i => x.getD i 0
            - ((Detrend.computeLinearRegressionCoeffs_ ⟨d.parms_, 0, 0, d.linit_⟩ (n : Int) x).2.b0_
              + (Detrend.computeLinearRegressionCoeffs_ ⟨d.parms_, 0, 0, d.linit_⟩
                  (n : Int) x).2.b1_ * (i : ℚ))))) := by
  have c1 : ¬ ((n : Int) ≤ 0) := by omega
  have ht : x.take n = x := List.take_of_length_le (by omega)
  simp only [Detrend.detrend, c1, if_false, Detrend.removeTrend_, Detrend.detrendSamePrecision,
    Int.toNat_ofNat, ht]
  have hM : ∀ M : List ℚ, M.length = n →
      writeAt y 0 (List.take n (writeAt (List.replicate n 0) 0 M)) = M := by
    intro M hl
    rw [writeAt_zero_full _ M (by simp [hl]), List.take_of_length_le (by omega),
      writeAt_zero_full _ M (by omega)]
  split
  · rw [writeAt_zero_full _ _ (by simp [hy])]
  · simp only [if_true]
    rw [hM _ (by simp)]

theorem addLine_length (a b : ℚ) (x : List ℚ) : (addLine a b x).length = x.length := by
  simp [addLine]

theorem addLine_getD (a b : ℚ) (x : List ℚ) (i : Nat) (h : i < x.length) :
    (addLine a b x).getD i 0 = x.getD i 0 + (a + b * (i : ℚ)) := by
  rw [addLine, map_range_getD _ _ _ h]

theorem sampleMean_addLine (a b : ℚ) (x : List ℚ) (h1 : 1 ≤ x.length) :
    sampleMean (addLine a b x) x.length
      = sampleMean x x.length + a + b * (((x.length : ℚ) - 1) / 2) := by
  have hn : (x.length : ℚ) ≠ 0 := by exact_mod_cast (show x.length ≠ 0 by omega)
  have e : ∑ i ∈ Finset.range x.length, (addLine a b x).getD i 0
      = ∑ i ∈ Finset.range x.length, (x.getD i 0 + (a + b * (i : ℚ))) :=
    Finset.sum_congr rfl (fun i hi => addLine_getD a b x i (Finset.mem_range.1 hi))
  rw [sampleMean, sampleMean, e, Finset.sum_add_distrib, Finset.sum_add_distrib, Finset.sum_const,
    Finset.card_range, ← Finset.mul_sum, sum_range_index]
  simp only [nsmul_eq_mul]
  field_simp
  ring

theorem indexCovariance_addLine (a b : ℚ) (x : List ℚ) (h1 : 1 ≤ x.length) :
    indexCovariance (addLine a b x) x.length
      = indexCovariance x x.length + b * (((x.length : ℚ) ^ 2 - 1) / 12) := by
  have hn : (x.length : ℚ) ≠ 0 := by exact_mod_cast (show x.length ≠ 0 by omega)
  have e0 : ∑ i ∈ Finset.range x.length, (addLine a b x).getD i 0
      = ∑ i ∈ Finset.range x.length, (x.getD i 0 + (a + b * (i : ℚ))) :=
    Finset.sum_congr rfl (fun i hi => addLine_getD a b x i (Finset.mem_range.1 hi))
  have e1 : ∑ i ∈ Finset.range x.length, (i : ℚ) * (addLine a b x).getD i 0
      = ∑ i ∈ Finset.range x.length,
          ((i : ℚ) * x.getD i 0 + (a * (i : ℚ) + b * ((i : ℚ) * (i : ℚ)))) :=
    Finset.sum_congr rfl (fun i hi => by
      rw [addLine_getD a b x i (Finset.mem_range.1 hi)]; ring)
  rw [indexCovariance_expand _ _ h1, indexCovariance_expand _ _ h1, e0, e1,
    Finset.sum_add_distrib, Finset.sum_add_distrib, Finset.sum_add_distrib,
    Finset.sum_add_distrib, Finset.sum_const, Finset.card_range, ← Finset.mul_sum,
    ← Finset.mul_sum, ← Finset.mul_sum, sum_range_index, sum_range_index_sq]
  simp only [nsmul_eq_mul]
  field_simp
  ring

/-- The output of detrending a whole signal of `1 ≤ n < 2^31` samples. -/
theorem Detrend.output_eq (d : Detrend) (x : List ℚ) (h1 : 1 ≤ x.length)
    (h : x.length < 2 ^ 31) :
    d.output x = (List.range x.length).map (fun i => x.getD i 0
      - ((sampleMean x x.length
            - indexCovariance x x.length / (((x.length : ℚ) ^ 2 - 1) / 12)
              * (((x.length : ℚ) - 1) / 2))
        + indexCovariance x x.length / (((x.length : ℚ) ^ 2 - 1) / 12) * (i : ℚ))) := by
  have hc := Detrend.coeffs_eq ⟨d.parms_, 0, 0, d.linit_⟩ x x.length h1 h
  rw [Detrend.output, Detrend.detrend_eq d x _ x.length h1 rfl (by simp)]
  simp only [hc.2.2.1, hc.2.2.2]

theorem Detrend.output_addLine (d : Detrend) (a b : ℚ) (x : List ℚ) (h2 : 2 ≤ x.length)
    (h : x.length < 2 ^ 31) : d.output (addLine a b x) = d.output x := by
  have hn2 : (2 : ℚ) ≤ x.length := by exact_mod_cast h2
  have hv : ((x.length : ℚ) ^ 2 - 1) / 12 ≠ 0 := by
    have : (x.length : ℚ) ^ 2 - 1 ≠ 0 := by nlinarith
    exact div_ne_zero this (by norm_num)
  have hl := addLine_length a b x
  rw [Detrend.output_eq d (addLine a b x) (by omega) (by omega), Detrend.output_eq d x (by omega) h,
    hl, sampleMean_addLine a b x (by omega), indexCovariance_addLine a b x (by omega)]
  apply List.map_congr_left
  intro i hi
  rw [addLine_getD a b x i (List.mem_range.1 hi)]
  have e : (indexCovariance x x.length + b * (((x.length : ℚ) ^ 2 - 1) / 12))
        / (((x.length : ℚ) ^ 2 - 1) / 12)
      = indexCovariance x x.length / (((x.length : ℚ) ^ 2 - 1) / 12) + b := by
    rw [add_div, mul_div_assoc, div_self hv, mul_one]
  rw [e]
  ring

/-- C11: for a signal of `2 ≤ n < 2^31` samples (`nx` is an `int`), the closed
forms `mean_x = (n - 1)/2` and `var_x = (n^2 - 1)/12` are the mean and the
population variance of the indices, `computeLinearRegressionCoeffs_` stores
`b1 = Cov(i, x)/Var(i)` and `b0 = mean(x) - b1*mean(i)`, and `detrend`
returns 0 with `y[i] = x[i] - (b0 + b1*i)`, whose sum and index-weighted sum
are 0. -/
theorem detrend_least_squares (d : Detrend) (x y : List ℚ) (n : Nat) (h2 : 2 ≤ n)
    (hb : n < 2 ^ 31) (hx : x.length = n) (hy : y.length = n) :
    Detrend.meanX (n : Int) = ((n : ℚ) - 1) / 2
    ∧ Detrend.meanX (n : Int) = indexMean n
    ∧ Detrend.varX (n : Int) = ((n : ℚ) ^ 2 - 1) / 12
    ∧ Detrend.varX (n : Int) = indexVariance n
    ∧ (d.computeLinearRegressionCoeffs_ (n : Int) x).2.b1_
        = indexCovariance x n / indexVariance n
    ∧ (d.computeLinearRegressionCoeffs_ (n : Int) x).2.b0_
        = sampleMean x n - (d.computeLinearRegressionCoeffs_ (n : Int) x).2.b1_ * indexMean n
    ∧ ∃ d1 ys, d.detrend (n : Int) (some x) (some y) = some (0, d1, some ys)
      ∧ d1.b1_ = indexCovariance x n / indexVariance n
      ∧ d1.b0_ = sampleMean x n - d1.b1_ * indexMean n
      ∧ ys.length = n
      ∧ (∀ i, i < n → ys.getD i 0 = x.getD i 0 - (d1.b0_ + d1.b1_ * (i : ℚ)))
      ∧ ∑ i ∈ Finset.range n, ys.getD i 0 = 0
      ∧ ∑ i ∈ Finset.range n, (i : ℚ) * ys.getD i 0 = 0 := by
  have h1 : 1 ≤ n := by omega
  have hm := indexMean_closed n h1
  have hv := indexVariance_closed n h1
  have hc := Detrend.coeffs_eq d x n h1 hb
  have hc0 := Detrend.coeffs_eq ⟨d.parms_, 0, 0, d.linit_⟩ x n h1 hb
  refine ⟨Detrend.meanX_closed n h1 hb, by rw [Detrend.meanX_closed n h1 hb, hm],
    Detrend.varX_closed n h1 hb, by rw [Detrend.varX_closed n h1 hb, hv],
    by rw [hc.2.2.1, hv], by rw [hc.2.2.2, hc.2.2.1, hm], _, _,
    Detrend.detrend_eq d x y n h1 hx hy, by rw [hc0.2.2.1, hv],
    by rw [hc0.2.2.2, hc0.2.2.1, hm], by simp, ?_, ?_, ?_⟩
  · intro i hi
    rw [map_range_getD _ _ _ hi]
  · have hr := (residual_sums (fun i => x.getD i 0) n h2
      (Detrend.computeLinearRegressionCoeffs_ ⟨d.parms_, 0, 0, d.linit_⟩ (n : Int) x).2.b0_
      (Detrend.computeLinearRegressionCoeffs_ ⟨d.parms_, 0, 0, d.linit_⟩ (n : Int) x).2.b1_
      (by rw [hc0.2.2.1, indexCovariance_expand x n h1])
      (by rw [hc0.2.2.2, hc0.2.2.1, sampleMean])).1
    exact (Finset.sum_congr rfl
      (fun i hi => map_range_getD _ _ _ (Finset.mem_range.1 hi))).trans hr
  · have hr := (residual_sums (fun i => x.getD i 0) n h2
      (Detrend.computeLinearRegressionCoeffs_ ⟨d.parms_, 0, 0, d.linit_⟩ (n : Int) x).2.b0_
      (Detrend.computeLinearRegressionCoeffs_ ⟨d.parms_, 0, 0, d.linit_⟩ (n : Int) x).2.b1_
      (by rw [hc0.2.2.1, indexCovariance_expand x n h1])
      (by rw [hc0.2.2.2, hc0.2.2.1, sampleMean])).2
    exact (Finset.sum_congr rfl (fun i hi => by
      rw [map_range_getD _ _ _ (Finset.mem_range.1 hi)])).trans hr

/-- C11 at the signal `[1, 3, 5, 8]`. -/
theorem detrend_least_squares_witness :
    ∃ d1 ys, (Detrend.create (DetrendParameters.create .DOUBLE)).detrend ((4 : Nat) : Int)
        (some [1, 3, 5, 8]) (some [0, 0, 0, 0]) = some (0, d1, some ys)
      ∧ d1.b1_ = indexCovariance [1, 3, 5, 8] 4 / indexVariance 4
      ∧ d1.b0_ = sampleMean [1, 3, 5, 8] 4 - d1.b1_ * indexMean 4
      ∧ ys.length = 4
      ∧ (∀ i, i < 4 →
          ys.getD i 0 = ([1, 3, 5, 8] : List ℚ).getD i 0 - (d1.b0_ + d1.b1_ * (i : ℚ)))
      ∧ ∑ i ∈ Finset.range 4, ys.getD i 0 = 0
      ∧ ∑ i ∈ Finset.range 4, (i : ℚ) * ys.getD i 0 = 0 :=
  (detrend_least_squares (Detrend.create (DetrendParameters.create .DOUBLE))
    [1, 3, 5, 8] [0, 0, 0, 0] 4 (by decide) (by decide) rfl rfl).2.2.2.2.2.2

theorem line_eq_addLine (a b : ℚ) (n i : Nat) (h : i < n) :
    (addLine a b (List.replicate n 0)).getD i 0 = a + b * (i : ℚ) := by
  rw [addLine_getD a b _ i (by simpa using h)]
  simp [List.getD_eq_getElem?_getD, List.getElem?_replicate, h]

theorem Detrend.output_zeros (d : Detrend) (n : Nat) (h1 : 1 ≤ n) (h : n < 2 ^ 31) :
    d.output (List.replicate n 0) = List.replicate n 0 := by
  have hg : ∀ i : Nat, (List.replicate n (0 : ℚ)).getD i 0 = 0 := by
    intro i
    simp only [List.getD_eq_getElem?_getD, List.getElem?_replicate]
    split <;> rfl
  rw [Detrend.output_eq d _ (by simpa using h1) (by simpa using h)]
  simp only [List.length_replicate, indexCovariance, sampleMean, hg]
  simp only [Finset.sum_const_zero, zero_div, sub_zero, mul_zero, zero_mul, add_zero,
    Finset.sum_const, smul_zero]
  apply List.ext_getElem
  · simp
  · intro i h1 h2
    simp

/-- C12: for `2 ≤ n < 2^31` samples, detrending `x[i] = a + b*i` gives `n`
zeros, detrending `x[i] + (a + b*i)` gives what detrending `x` gives, and
detrending the detrended signal changes nothing; `Detrend.output` is what
`detrend` returns in `y`. -/
theorem detrend_removes_line (d : Detrend) (a b : ℚ) (x : List ℚ) (n : Nat) (h2 : 2 ≤ n)
    (hb : n < 2 ^ 31) (hx : x.length = n) :
    (∀ y : List ℚ, y.length = n →
      ∃ d1, d.detrend (n : Int) (some x) (some y) = some (0, d1, some (d.output x)))
    ∧ (∀ i, i < n → (addLine a b (List.replicate n 0)).getD i 0 = a + b * (i : ℚ))
    ∧ d.output (addLine a b (List.replicate n 0)) = List.replicate n 0
    ∧ d.output (addLine a b x) = d.output x
    ∧ d.output (d.output x) = d.output x := by
  subst hx
  have h1 : 1 ≤ x.length := by omega
  refine ⟨?_, fun i hi => line_eq_addLine a b _ i hi, ?_, Detrend.output_addLine d a b x h2 hb, ?_⟩
  · intro y hy
    refine ⟨(Detrend.computeLinearRegressionCoeffs_ ⟨d.parms_, 0, 0, d.linit_⟩
      (x.length : Int) x).2, ?_⟩
    rw [Detrend.detrend_eq d x y x.length h1 rfl hy, Detrend.output,
      Detrend.detrend_eq d x _ x.length h1 rfl (by simp)]
  · rw [Detrend.output_addLine d a b _ (by simpa using h2) (by simpa using hb),
      Detrend.output_zeros d _ h1 hb]
  · have e : d.output x = addLine
        (-(sampleMean x x.length
            - indexCovariance x x.length / (((x.length : ℚ) ^ 2 - 1) / 12)
              * (((x.length : ℚ) - 1) / 2)))
        (-(indexCovariance x x.length / (((x.length : ℚ) ^ 2 - 1) / 12))) x := by
      rw [Detrend.output_eq d x h1 hb, addLine]
      apply List.map_congr_left
      intro i _
      ring
    rw [e, Detrend.output_addLine d _ _ x h2 hb]
    exact e

/-- C12 at the signal `[1, 3, 5, 8]` and the line `2 + 3*i`. -/
theorem detrend_removes_line_witness :
    (Detrend.create (DetrendParameters.create .DOUBLE)).output (addLine 2 3 [1, 3, 5, 8])
      = (Detrend.create (DetrendParameters.create .DOUBLE)).output [1, 3, 5, 8] :=
  (detrend_removes_line (Detrend.create (DetrendParameters.create .DOUBLE)) 2 3
    [1, 3, 5, 8] 4 (by decide) (by decide) rfl).2.2.2.1

/-- C13: on one sample, `x = [5]` and `y = [7]`, both overloads of
`Detrend::detrend` return 0 and overwrite `y`: the block that reports
"At least 2 points required" has no `return`.  With a null `x` the call goes
on to read through the pointer; no error code is returned. -/
theorem detrend_single_sample_not_rejected :
    ((Detrend.create (DetrendParameters.create .DOUBLE)).detrend 1 (some [5]) (some [7])).map
        (fun r => r.1) = some 0
    ∧ ((Detrend.create (DetrendParameters.create .DOUBLE)).detrend 1 (some [5]) (some [7])).map
        (fun r => r.2.2) ≠ some (some [7])
    ∧ ((Detrend.create (DetrendParameters.create .FLOAT)).detrendFloat 1 (some [5])
        (some [7])).map (fun r => r.1) = some 0
    ∧ ((Detrend.create (DetrendParameters.create .FLOAT)).detrendFloat 1 (some [5])
        (some [7])).map (fun r => r.2.2) ≠ some (some [7])
    ∧ (Detrend.create (DetrendParameters.create .DOUBLE)).detrend 2 none (some [7, 7]) = none := by
  decide!

/-! ### Waveform: construction, data and frequencies -/

/-- C14: `Waveform(dt)` throws `invalid_argument` exactly when `dt ≤ 0`; for
`dt > 0` the object is constructed and `getNyquistFrequency()` is
`1/(2*dt)`, which is positive. -/
theorem waveform_constructor (dt : ℚ) :
    (Waveform.create dt = .error .InvalidArgument ↔ dt ≤ 0)
    ∧ ((∃ w, Waveform.create dt = .ok w) ↔ 0 < dt)
    ∧ (0 < dt → ∃ w, Waveform.create dt = .ok w
        ∧ w.getNyquistFrequency = 1 / (2 * dt) ∧ 0 < w.getNyquistFrequency) := by
  by_cases h : dt ≤ 0
  · have h2 : ¬ 0 < dt := not_lt.2 h
    simp [Waveform.create, h, h2]
  · have h2 : 0 < dt := not_le.1 h
    simp only [Waveform.create, h, if_false, Waveform.getNyquistFrequency]
    refine ⟨by simp, by simp [h2], fun _ => ⟨_, rfl, rfl, by positivity⟩⟩

/-- C14 at `dt = 1/100`. -/
theorem waveform_constructor_witness :
    ∃ w, Waveform.create (1 / 100) = .ok w
      ∧ w.getNyquistFrequency = 1 / (2 * (1 / 100)) ∧ 0 < w.getNyquistFrequency :=
  (waveform_constructor (1 / 100)).2.2 (by norm_num)

theorem Waveform.implSetData_eq (w : Waveform) (n : Nat) (x : List ℚ) (h : n ≤ x.length) :
    w.implSetData n x = ⟨x.take n, w.y_, w.dt⟩ := by
  simp only [Waveform.implSetData]
  rw [writeAt_zero_full _ _ (by rw [resize_length, List.length_take]; omega)]

/-- C15: `setData` with `n = 0`, with a null pointer, or with an empty vector
throws `invalid_argument` and leaves the object as it was, and it throws in
no other case; with `n ≥ 1` samples it completes, `x_` is those `n` samples,
`getLengthOfInputSignal()` is `n`, and `y_` and `dt` are untouched. -/
theorem waveform_setData (w : Waveform) (n : Nat) (x : List ℚ) :
    w.setData 0 (some x) = (.thrown .InvalidArgument, w)
    ∧ w.setData n none = (.thrown .InvalidArgument, w)
    ∧ w.setDataVector [] = (.thrown .InvalidArgument, w)
    ∧ (∀ p : Option (List ℚ), (w.setData n p).1 ≠ .done ↔ (n < 1 ∨ p = none))
    ∧ (∀ p : Option (List ℚ), (w.setData n p).1 ≠ .done →
        w.setData n p = (.thrown .InvalidArgument, w))
    ∧ (1 ≤ n → n ≤ x.length →
        (w.setData n (some x)).1 = .done
        ∧ (w.setData n (some x)).2.x_ = x.take n
        ∧ (w.setData n (some x)).2.getLengthOfInputSignal = n
        ∧ (w.setData n (some x)).2.y_ = w.y_
        ∧ (w.setData n (some x)).2.dt = w.dt)
    ∧ (1 ≤ x.length → w.setDataVector x = (.done, ⟨x, w.y_, w.dt⟩)) := by
  refine ⟨rfl, rfl, rfl, ?_, ?_, ?_, ?_⟩
  · intro p
    cases p with
    | none => simp [Waveform.setData]
    | some xv =>
      by_cases h : n < 1 <;> simp [Waveform.setData, h]
  · intro p
    cases p with
    | none => simp [Waveform.setData]
    | some xv =>
      by_cases h : n < 1 <;> simp [Waveform.setData, h]
  · intro h1 h2
    have h : ¬ n < 1 := by omega
    simp only [Waveform.setData, h, if_false, Waveform.implSetData_eq w n x h2,
      Waveform.getLengthOfInputSignal, List.length_take]
    exact ⟨trivial, trivial, by omega, trivial, trivial⟩
  · intro h1
    have h : ¬ x.length < 1 := by omega
    simp only [Waveform.setDataVector, Waveform.setData, h, if_false,
      Waveform.implSetData_eq w x.length x (le_refl _), List.take_length]

/-- C15 at the samples `[1, 2, 3]` on a waveform holding output `[9]`. -/
theorem waveform_setData_witness :
    (Waveform.setData ⟨[], [9], 1⟩ 3 (some [1, 2, 3])).1 = .done
    ∧ (Waveform.setData ⟨[], [9], 1⟩ 3 (some [1, 2, 3])).2.x_ = List.take 3 [1, 2, 3]
    ∧ (Waveform.setData ⟨[], [9], 1⟩ 3 (some [1, 2, 3])).2.getLengthOfInputSignal = 3
    ∧ (Waveform.setData ⟨[], [9], 1⟩ 3 (some [1, 2, 3])).2.y_ = [9]
    ∧ (Waveform.setData ⟨[], [9], 1⟩ 3 (some [1, 2, 3])).2.dt = 1 :=
  (waveform_setData ⟨[], [9], 1⟩ 3 [1, 2, 3]).2.2.2.2.2.1 (by decide) (by decide)

/-- C16: for `dt > 0`, `computeNormalizedFrequencyFromSamplingPeriod(fc, dt)`
throws `invalid_argument` exactly when `fc < 0` or `fc > 1/(2*dt)`; otherwise
it returns `fc/(1/(2*dt)) = 2*fc*dt`, which lies in `[0, 1]`. -/
theorem normalized_frequency (fc dt : ℚ) (hdt : 0 < dt) :
    (computeNormalizedFrequencyFromSamplingPeriod fc dt = .error .InvalidArgument
        ↔ fc < 0 ∨ fc > 1 / (2 * dt))
    ∧ (¬ (fc < 0 ∨ fc > 1 / (2 * dt)) →
        computeNormalizedFrequencyFromSamplingPeriod fc dt = .ok (fc / (1 / (2 * dt)))
        ∧ fc / (1 / (2 * dt)) = 2 * fc * dt
        ∧ 0 ≤ 2 * fc * dt ∧ 2 * fc * dt ≤ 1) := by
  have h2 : (0 : ℚ) < 2 * dt := by positivity
  have key : computeNormalizedFrequencyFromSamplingPeriod fc dt
      = if fc < 0 ∨ fc > 1 / (2 * dt) then .error .InvalidArgument
        else .ok (fc / (1 / (2 * dt))) := rfl
  have e : fc / (1 / (2 * dt)) = 2 * fc * dt := by field_simp; ring
  rw [key]
  by_cases h : fc < 0 ∨ fc > 1 / (2 * dt)
  · rw [if_pos h]
    exact ⟨⟨fun _ => h, fun _ => rfl⟩, fun c => absurd h c⟩
  · rw [if_neg h]
    refine ⟨⟨fun c => (by cases c), fun c => absurd c h⟩, fun _ => ⟨rfl, e, ?_, ?_⟩⟩
    · have : 0 ≤ fc := not_lt.1 (fun c => h (Or.inl c))
      positivity
    · have hle : fc ≤ 1 / (2 * dt) := not_lt.1 (fun c => h (Or.inr c))
      rw [le_div_iff₀ h2] at hle
      linarith

/-- C16 at `fc = 10`, `dt = 1/100`. -/
theorem normalized_frequency_witness :
    computeNormalizedFrequencyFromSamplingPeriod 10 (1 / 100)
        = .ok (10 / (1 / (2 * (1 / 100))))
    ∧ (10 : ℚ) / (1 / (2 * (1 / 100))) = 2 * 10 * (1 / 100)
    ∧ (0 : ℚ) ≤ 2 * 10 * (1 / 100) ∧ (2 : ℚ) * 10 * (1 / 100) ≤ 1 :=
  (normalized_frequency 10 (1 / 100) (by norm_num)).2 (by norm_num)

/-- C17: for `dt > 0`, the band-edge overload throws `invalid_argument`
exactly when `f1 < 0`, `f1 ≥ f2` or `f2 > 1/(2*dt)`; otherwise it returns
`(2*f1*dt, 2*f2*dt)` with `0 ≤ r.first < r.second ≤ 1`. -/
theorem normalized_band (f1 f2 dt : ℚ) (hdt : 0 < dt) :
    (computeNormalizedFrequencyFromSamplingPeriodPair (f1, f2) dt = .error .InvalidArgument
        ↔ f1 < 0 ∨ f1 ≥ f2 ∨ f2 > 1 / (2 * dt))
    ∧ (¬ (f1 < 0 ∨ f1 ≥ f2 ∨ f2 > 1 / (2 * dt)) →
        computeNormalizedFrequencyFromSamplingPeriodPair (f1, f2) dt
          = .ok (2 * f1 * dt, 2 * f2 * dt)
        ∧ 0 ≤ 2 * f1 * dt ∧ 2 * f1 * dt < 2 * f2 * dt ∧ 2 * f2 * dt ≤ 1) := by
  have h2 : (0 : ℚ) < 2 * dt := by positivity
  have key : computeNormalizedFrequencyFromSamplingPeriodPair (f1, f2) dt
      = if f1 < 0 then .error .InvalidArgument
        else if f1 ≥ f2 then .error .InvalidArgument
        else if f2 > 1 / (2 * dt) then .error .InvalidArgument
        else .ok (f1 / (1 / (2 * dt)), f2 / (1 / (2 * dt))) := rfl
  have e1 : f1 / (1 / (2 * dt)) = 2 * f1 * dt := by field_simp; ring
  have e2 : f2 / (1 / (2 * dt)) = 2 * f2 * dt := by field_simp; ring
  rw [key, e1, e2]
  by_cases a : f1 < 0
  · rw [if_pos a]
    exact ⟨⟨fun _ => Or.inl a, fun _ => rfl⟩, fun c => absurd (Or.inl a) c⟩
  · rw [if_neg a]
    by_cases b : f1 ≥ f2
    · rw [if_pos b]
      exact ⟨⟨fun _ => Or.inr (Or.inl b), fun _ => rfl⟩, fun c => absurd (Or.inr (Or.inl b)) c⟩
    · rw [if_neg b]
      by_cases c : f2 > 1 / (2 * dt)
      · rw [if_pos c]
        exact ⟨⟨fun _ => Or.inr (Or.inr c), fun _ => rfl⟩,
          fun k => absurd (Or.inr (Or.inr c)) k⟩
      · rw [if_neg c]
        have hn : ¬ (f1 < 0 ∨ f1 ≥ f2 ∨ f2 > 1 / (2 * dt)) := by
          rintro (h | h | h)
          · exact a h
          · exact b h
          · exact c h
        refine ⟨⟨fun k => (by cases k), fun k => absurd k hn⟩, fun _ => ⟨rfl, ?_, ?_, ?_⟩⟩
        · have : 0 ≤ f1 := not_lt.1 a
          positivity
        · have : f1 < f2 := not_le.1 b
          nlinarith
        · have hle : f2 ≤ 1 / (2 * dt) := not_lt.1 c
          rw [le_div_iff₀ h2] at hle
          linarith

/-- C17 at the band `(1, 10)` and `dt = 1/100`. -/
theorem normalized_band_witness :
    computeNormalizedFrequencyFromSamplingPeriodPair (1, 10) (1 / 100)
        = .ok (2 * 1 * (1 / 100), 2 * 10 * (1 / 100))
    ∧ (0 : ℚ) ≤ 2 * 1 * (1 / 100) ∧ (2 : ℚ) * 1 * (1 / 100) < 2 * 10 * (1 / 100)
    ∧ (2 : ℚ) * 10 * (1 / 100) ≤ 1 :=
  (normalized_band 1 10 (1 / 100) (by norm_num)).2 (by norm_num)

/-! ### Waveform: the processing operations -/

theorem FIRFilter.init_ok (taps : List ℚ) (mode : ProcessingMode) (h : ¬ taps.length < 1) :
    FIRFilter.init taps mode = .ok ⟨taps, mode, List.replicate (taps.length - 1) 0⟩ := by
  rw [FIRFilter.init, if_neg h]

/-- The result of `firFilter` is that of `firFilterRun` with the warning
dropped and no object after a throw. -/
theorem Waveform.firFilter_eq_run (w : Waveform) (taps : List ℚ) (lremovePhase : Bool) :
    w.firFilter taps lremovePhase
      = match w.firFilterRun taps lremovePhase with
        | (.thrown e, _) => .error e
        | (_, w1) => .ok w1 := by
  unfold Waveform.firFilter Waveform.firFilterRun
  by_cases h1 : w.getLengthOfInputSignal < 1
  · simp only [h1, if_true]
  · by_cases h2 : taps.length < 1
    · simp only [h1, h2, if_true, if_false]
    · simp only [h1, h2, if_false, FIRFilter.init_ok taps _ h2]
      cases lremovePhase <;> rfl

/-- The result of `sosFilter` is that of `sosFilterRun` with the warning
dropped and no object after a throw. -/
theorem Waveform.sosFilter_eq_run (w : Waveform) (ns : Nat) (bs as : List ℚ)
    (lremovePhase : Bool) :
    w.sosFilter ns bs as lremovePhase
      = match w.sosFilterRun ns bs as lremovePhase with
        | (.thrown e, _) => .error e
        | (_, w1) => .ok w1 := by
  unfold Waveform.sosFilter Waveform.sosFilterRun
  by_cases h1 : w.getLengthOfInputSignal < 1
  · simp only [h1, if_true]
  · by_cases h2 : ns < 1
    · simp only [h1, h2, if_true, if_false]
    · simp only [h1, h2, if_false]
      cases h3 : SOSFilter.init ns bs as ProcessingMode.POST_PROCESSING with
      | error e => rfl
      | ok f => cases lremovePhase <;> rfl

/-- C18: with at least one stored sample, `firFilter` with no taps,
`iirFilter` with an empty numerator or an empty denominator, and `sosFilter`
with zero sections throw `InvalidArgument` and leave the object, `x_` and
`y_` included, exactly as it was. -/
theorem filters_reject_empty_coefficients (w : Waveform) (lremovePhase : Bool)
    (b a bs as : List ℚ) (hx : 1 ≤ w.x_.length) :
    w.firFilterRun [] lremovePhase = (.thrown .InvalidArgument, w)
    ∧ w.firFilter [] lremovePhase = .error .InvalidArgument
    ∧ w.iirFilterRun [] a lremovePhase = (.thrown .InvalidArgument, w)
    ∧ w.iirFilterRun b [] lremovePhase = (.thrown .InvalidArgument, w)
    ∧ w.sosFilterRun 0 bs as lremovePhase = (.thrown .InvalidArgument, w)
    ∧ w.sosFilter 0 bs as lremovePhase = .error .InvalidArgument := by
  have h1 : ¬ w.getLengthOfInputSignal < 1 := by
    simp only [Waveform.getLengthOfInputSignal]; omega
  have f1 : w.firFilterRun [] lremovePhase = (.thrown .InvalidArgument, w) := by
    simp [Waveform.firFilterRun, h1]
  have s1 : w.sosFilterRun 0 bs as lremovePhase = (.thrown .InvalidArgument, w) := by
    simp [Waveform.sosFilterRun, h1]
  refine ⟨f1, ?_, ?_, ?_, s1, ?_⟩
  · rw [Waveform.firFilter_eq_run, f1]
  · simp [Waveform.iirFilterRun, h1]
  · simp [Waveform.iirFilterRun, h1]
  · rw [Waveform.sosFilter_eq_run, s1]

/-- C18 on the waveform holding `x_ = [1, 2]` and `y_ = [9]`. -/
theorem filters_reject_empty_coefficients_witness :
    Waveform.firFilterRun ⟨[1, 2], [9], 1⟩ [] true = (.thrown .InvalidArgument, ⟨[1, 2], [9], 1⟩)
    ∧ Waveform.firFilter ⟨[1, 2], [9], 1⟩ [] true = .error .InvalidArgument
    ∧ Waveform.iirFilterRun ⟨[1, 2], [9], 1⟩ [] [1] true
        = (.thrown .InvalidArgument, ⟨[1, 2], [9], 1⟩)
    ∧ Waveform.iirFilterRun ⟨[1, 2], [9], 1⟩ [1] [] true
        = (.thrown .InvalidArgument, ⟨[1, 2], [9], 1⟩)
    ∧ Waveform.sosFilterRun ⟨[1, 2], [9], 1⟩ 0 [] [] true
        = (.thrown .InvalidArgument, ⟨[1, 2], [9], 1⟩)
    ∧ Waveform.sosFilter ⟨[1, 2], [9], 1⟩ 0 [] [] true = .error .InvalidArgument :=
  filters_reject_empty_coefficients ⟨[1, 2], [9], 1⟩ true [1] [1] [] [] (by decide)

theorem Taper.apply_some_length (window : TaperType → Nat → List ℚ) (t : Taper) (nx : Int)
    (x y : List ℚ) :
    ∃ y1, (Taper.apply window t nx (some x) (some y)).2.2 = some y1 ∧ y1.length = y.length := by
  unfold Taper.apply
  by_cases h1 : nx ≤ 0
  · simp only [h1, if_true]
    exact ⟨y, rfl, rfl⟩
  · simp only [h1, if_false]
    by_cases h2 : nx < 3
    · simp only [h2, if_true]
      refine ⟨_, rfl, ?_⟩
      split <;> simp [writeAt_length]
    · simp only [h2, if_false]
      by_cases h3 : t.winLen0 ≠ Taper.taperLength nx t.parms.getPercentage
          ∧ Taper.taperLength nx t.parms.getPercentage + 2 < 0
      · rw [if_pos h3]
        exact ⟨y, rfl, rfl⟩
      · rw [if_neg h3]
        refine ⟨_, rfl, ?_⟩
        rw [writeAt_length]
        split <;> simp [writeAt_length]

theorem Waveform.firFilterRun_spec (w : Waveform) (taps : List ℚ) (lremovePhase : Bool) :
    (w.firFilterRun taps lremovePhase).2.x_ = w.x_
    ∧ ((w.firFilterRun taps lremovePhase).1 = .done →
        (w.firFilterRun taps lremovePhase).2.y_.length = w.x_.length)
    ∧ ((w.firFilterRun taps lremovePhase).1 = .warned →
        (w.firFilterRun taps lremovePhase).2 = w) := by
  unfold Waveform.firFilterRun
  by_cases h1 : w.getLengthOfInputSignal < 1
  · simp [h1]
  · by_cases h2 : taps.length < 1
    · simp [h1, h2]
    · simp only [h1, h2, if_false, FIRFilter.init_ok taps _ h2]
      cases lremovePhase <;>
        simp [Waveform.resizeOutputData, Waveform.reverse, writeAt_length, resize_length,
          Waveform.getLengthOfInputSignal]

theorem Waveform.sosFilterRun_spec (w : Waveform) (ns : Nat) (bs as : List ℚ)
    (lremovePhase : Bool) :
    (w.sosFilterRun ns bs as lremovePhase).2.x_ = w.x_
    ∧ ((w.sosFilterRun ns bs as lremovePhase).1 = .done →
        (w.sosFilterRun ns bs as lremovePhase).2.y_.length = w.x_.length)
    ∧ ((w.sosFilterRun ns bs as lremovePhase).1 = .warned →
        (w.sosFilterRun ns bs as lremovePhase).2 = w) := by
  unfold Waveform.sosFilterRun
  by_cases h1 : w.getLengthOfInputSignal < 1
  · simp [h1]
  · by_cases h2 : ns < 1
    · simp [h1, h2]
    · simp only [h1, h2, if_false]
      cases h3 : SOSFilter.init ns bs as ProcessingMode.POST_PROCESSING with
      | error e => simp
      | ok f =>
        cases lremovePhase <;>
          simp [Waveform.resizeOutputData, Waveform.reverse, writeAt_length, resize_length,
            Waveform.getLengthOfInputSignal]

theorem Waveform.iirFilterRun_spec (w : Waveform) (b a : List ℚ) (lremovePhase : Bool) :
    (w.iirFilterRun b a lremovePhase).2.x_ = w.x_
    ∧ ((w.iirFilterRun b a lremovePhase).1 = .done →
        (w.iirFilterRun b a lremovePhase).2.y_.length = w.x_.length)
    ∧ ((w.iirFilterRun b a lremovePhase).1 = .warned →
        (w.iirFilterRun b a lremovePhase).2 = w) := by
  unfold Waveform.iirFilterRun
  by_cases h1 : w.getLengthOfInputSignal < 1
  · simp [h1]
  · by_cases h2 : b.length < 1 ∨ a.length < 1
    · simp only [h1, h2, if_true, if_false]
      simp
    · simp only [h1, h2, if_false, iirInit]
      cases lremovePhase <;>
        simp [Waveform.resizeOutputData, writeAt_length, resize_length,
          Waveform.getLengthOfInputSignal]

theorem Waveform.demean_spec (c : Collaborators) (w : Waveform) :
    (Waveform.demean c w).2.x_ = w.x_
    ∧ ((Waveform.demean c w).1 = .done → (Waveform.demean c w).2.y_.length = w.x_.length)
    ∧ ((Waveform.demean c w).1 = .warned → (Waveform.demean c w).2 = w) := by
  unfold Waveform.demean
  by_cases h1 : w.getLengthOfInputSignal < 1
  · simp [h1]
  · simp only [h1, if_false]
    split <;>
      simp [Waveform.resizeOutputData, writeAt_length, resize_length,
        Waveform.getLengthOfInputSignal]

theorem Waveform.detrend_spec (c : Collaborators) (w : Waveform) :
    (Waveform.detrend c w).2.x_ = w.x_
    ∧ ((Waveform.detrend c w).1 = .done → (Waveform.detrend c w).2.y_.length = w.x_.length)
    ∧ ((Waveform.detrend c w).1 = .warned → (Waveform.detrend c w).2 = w) := by
  unfold Waveform.detrend
  by_cases h1 : w.getLengthOfInputSignal < 2
  · simp [h1]
  · simp only [h1, if_false]
    split <;>
      simp [Waveform.resizeOutputData, writeAt_length, resize_length,
        Waveform.getLengthOfInputSignal]

theorem Waveform.taper_spec (c : Collaborators) (w : Waveform) (pct : ℚ) (window : TaperType) :
    (Waveform.taper c w pct window).2.x_ = w.x_
    ∧ ((Waveform.taper c w pct window).1 = .done →
        (Waveform.taper c w pct window).2.y_.length = w.x_.length)
    ∧ ((Waveform.taper c w pct window).1 = .warned → (Waveform.taper c w pct window).2 = w) := by
  unfold Waveform.taper
  by_cases h1 : w.getLengthOfInputSignal < 1
  · simp [h1]
  · simp only [h1, if_false]
    cases TaperParameters.create pct window Precision.DOUBLE with
    | error e => simp
    | ok parms =>
      simp only
      cases hs : Taper.default.setParameters parms with
      | mk r t =>
        cases r with
        | error e => simp
        | ok u =>
          simp only
          obtain ⟨y1, hy1, hl⟩ := Taper.apply_some_length c.window t
            (w.getLengthOfInputSignal : Int) (w.resizeOutputData w.getLengthOfInputSignal).x_
            (w.resizeOutputData w.getLengthOfInputSignal).y_
          cases ha : Taper.apply c.window t (w.getLengthOfInputSignal : Int)
              (some (w.resizeOutputData w.getLengthOfInputSignal).x_)
              (some (w.resizeOutputData w.getLengthOfInputSignal).y_) with
          | mk r2 rest =>
            cases rest with
            | mk t2 yo =>
              rw [ha] at hy1
              simp only at hy1
              subst hy1
              cases r2 <;>
                simp [Waveform.resizeOutputData, hl, resize_length,
                  Waveform.getLengthOfInputSignal] at hl ⊢

theorem Waveform.convolve_spec (c : Collaborators) (w : Waveform) (s : List ℚ)
    (mode : ConvolutionMode) (implementation : ConvolutionImplementation) :
    (Waveform.convolve c w s mode implementation).2.x_ = w.x_
    ∧ (Waveform.convolve c w s mode implementation).1 ≠ .warned := by
  unfold Waveform.convolve
  by_cases h1 : w.getLengthOfInputSignal < 1
  · simp [h1]
  · by_cases h2 : s.length < 1
    · simp [h1, h2]
    · simp only [h1, h2, if_false]
      cases mode <;> cases implementation <;>
        simp only [classifyConvolveMode, classifyConvolveImplementation] <;>
        split <;> simp

theorem Waveform.correlate_spec (c : Collaborators) (w : Waveform) (s : List ℚ)
    (mode : ConvolutionMode) (implementation : ConvolutionImplementation) :
    (Waveform.correlate c w s mode implementation).2.x_ = w.x_
    ∧ (Waveform.correlate c w s mode implementation).1 ≠ .warned := by
  unfold Waveform.correlate
  by_cases h1 : w.getLengthOfInputSignal < 1
  · simp [h1]
  · by_cases h2 : s.length < 1
    · simp [h1, h2]
    · simp only [h1, h2, if_false]
      cases mode <;> cases implementation <;>
        simp only [classifyConvolveMode, classifyConvolveImplementation] <;>
        split <;> simp

theorem Waveform.autocorrelate_spec (c : Collaborators) (w : Waveform)
    (mode : ConvolutionMode) (implementation : ConvolutionImplementation) :
    (Waveform.autocorrelate c w mode implementation).2.x_ = w.x_
    ∧ (Waveform.autocorrelate c w mode implementation).1 ≠ .warned := by
  unfold Waveform.autocorrelate
  by_cases h1 : w.getLengthOfInputSignal < 1
  · simp [h1]
  · simp only [h1, if_false]
    cases mode <;> cases implementation <;>
      simp only [classifyConvolveMode, classifyConvolveImplementation] <;>
      split <;> simp

/-- C19: every processing operation leaves the stored input `x_` as it was,
whatever the collaborators compute and however the call ends; a filter,
demean, detrend or taper call that completes leaves `y_` with as many
samples as `x_`; a call that only warns (no data, or fewer than two samples
for detrend) changes nothing. -/
theorem waveform_input_preserved (c : Collaborators) (w : Waveform) (op : Waveform.Op) :
    (Waveform.run c w op).2.x_ = w.x_
    ∧ (op.samplewise = true → (Waveform.run c w op).1 = .done →
        (Waveform.run c w op).2.y_.length = w.x_.length)
    ∧ ((Waveform.run c w op).1 = .warned → (Waveform.run c w op).2 = w) := by
  cases op with
  | firFilter taps lremovePhase =>
    exact ⟨(Waveform.firFilterRun_spec w taps lremovePhase).1,
      fun _ => (Waveform.firFilterRun_spec w taps lremovePhase).2.1,
      (Waveform.firFilterRun_spec w taps lremovePhase).2.2⟩
  | iirFilter b a lremovePhase =>
    exact ⟨(Waveform.iirFilterRun_spec w b a lremovePhase).1,
      fun _ => (Waveform.iirFilterRun_spec w b a lremovePhase).2.1,
      (Waveform.iirFilterRun_spec w b a lremovePhase).2.2⟩
  | sosFilter ns bs as lremovePhase =>
    exact ⟨(Waveform.sosFilterRun_spec w ns bs as lremovePhase).1,
      fun _ => (Waveform.sosFilterRun_spec w ns bs as lremovePhase).2.1,
      (Waveform.sosFilterRun_spec w ns bs as lremovePhase).2.2⟩
  | demean =>
    exact ⟨(Waveform.demean_spec c w).1, fun _ => (Waveform.demean_spec c w).2.1,
      (Waveform.demean_spec c w).2.2⟩
  | detrend =>
    exact ⟨(Waveform.detrend_spec c w).1, fun _ => (Waveform.detrend_spec c w).2.1,
      (Waveform.detrend_spec c w).2.2⟩
  | taper pct window =>
    exact ⟨(Waveform.taper_spec c w pct window).1,
      fun _ => (Waveform.taper_spec c w pct window).2.1,
      (Waveform.taper_spec c w pct window).2.2⟩
  | convolve s mode implementation =>
    exact ⟨(Waveform.convolve_spec c w s mode implementation).1,
      fun h => absurd h (by simp [Waveform.Op.samplewise]),
      fun h => absurd h (Waveform.convolve_spec c w s mode implementation).2⟩
  | correlate s mode implementation =>
    exact ⟨(Waveform.correlate_spec c w s mode implementation).1,
      fun h => absurd h (by simp [Waveform.Op.samplewise]),
      fun h => absurd h (Waveform.correlate_spec c w s mode implementation).2⟩
  | autocorrelate mode implementation =>
    exact ⟨(Waveform.autocorrelate_spec c w mode implementation).1,
      fun h => absurd h (by simp [Waveform.Op.samplewise]),
      fun h => absurd h (Waveform.autocorrelate_spec c w mode implementation).2⟩

/-- C19 for the zero-phase FIR call with taps `[1, 1]` on `x_ = [1, 0]`. -/
theorem waveform_input_preserved_witness :
    (Waveform.run ⟨fun _ x _ => (none, x), fun _ x _ => (none, x), fun _ k => List.replicate k 1,
        fun x _ _ _ => (0, x), fun x _ _ _ => (0, x), fun x _ _ => (0, x)⟩
      ⟨[1, 0], [], 1⟩ (.firFilter [1, 1] true)).2.y_.length = [(1 : ℚ), 0].length :=
  (waveform_input_preserved ⟨fun _ x _ => (none, x), fun _ x _ => (none, x),
      fun _ k => List.replicate k 1, fun x _ _ _ => (0, x), fun x _ _ _ => (0, x),
      fun x _ _ => (0, x)⟩ ⟨[1, 0], [], 1⟩ (.firFilter [1, 1] true)).2.1 rfl (by decide!)

/-! ### Vector division -/

theorem resizeCplx_length (v : List Cplx) (n : Nat) : (resizeCplx v n).length = n := by
  simp [resizeCplx]; omega

theorem overwriteCplx_length (dst src : List Cplx) :
    (overwriteCplx dst src).length = dst.length := by
  simp only [overwriteCplx, List.length_take, List.length_append, List.length_drop]
  omega

theorem overwriteCplx_full (dst src : List Cplx) (h : src.length = dst.length) :
    overwriteCplx dst src = src := by
  simp [overwriteCplx, h]

theorem Cplx.div_mul_cancel (n d : Cplx) (hd : d ≠ Cplx.zero) :
    Cplx.mul (Cplx.div n d) d = n := by
  have hq : d.re * d.re + d.im * d.im ≠ 0 := by
    intro h
    have h1 : d.re = 0 := by nlinarith [mul_self_nonneg d.re, mul_self_nonneg d.im]
    have h2 : d.im = 0 := by nlinarith [mul_self_nonneg d.re, mul_self_nonneg d.im]
    apply hd
    cases d
    simp only [Cplx.zero, Cplx.mk.injEq]
    exact ⟨h1, h2⟩
  cases n with
  | mk a b =>
    simp only [Cplx.mul, Cplx.div, Cplx.mk.injEq]
    constructor
    · field_simp
      ring
    · field_simp
      ring

/-- What `VectorMath::divide` does on vectors of equal length. -/
theorem VectorMath.divide_same_length (intelCompiler : Bool)
    (ippsDiv : List Cplx → List Cplx → Nat → IppStatus × List Cplx)
    (den num res : List Cplx) (h : num.length = den.length) :
    VectorMath.divide intelCompiler ippsDiv den num res
      = if num.length = 0 then (0, [])
        else if intelCompiler then (0, List.zipWith Cplx.div num den)
        else if (ippsDiv den num num.length).1 ≠ .ippStsNoErr then
          (-1, overwriteCplx (resizeCplx res num.length) (ippsDiv den num num.length).2)
        else (0, overwriteCplx (resizeCplx res num.length) (ippsDiv den num num.length).2) := by
  have c1 : ¬ ((num.length : Int) ≠ (den.length : Int)) := by simp [h]
  simp only [VectorMath.divide, c1, if_false, Int.toNat_ofNat, List.take_length]
  by_cases h0 : num.length = 0
  · have c2 : (num.length : Int) ≤ 0 := by omega
    simp [c2, h0, resizeCplx]
  · have c2 : ¬ (num.length : Int) ≤ 0 := by omega
    simp only [c2, h0, if_false]
    cases intelCompiler
    · simp
    · simp only [if_true]
      rw [overwriteCplx_full _ _ (by rw [resizeCplx_length, List.length_zipWith]; omega)]

/-- C20 fails as stated: with the behaviour documented for `ippsDiv_64fc`, the
IPP branch on `den = [0]`, `num = [1]` and an empty `res` returns -1 although
both vectors have length 1, and `res` has been resized to length 1. -/
theorem divide_ipp_zero_divisor :
    (VectorMath.divide false ippsDivDocumented [⟨0, 0⟩] [⟨1, 0⟩] []).1 = -1
    ∧ ([⟨0, 0⟩] : List Cplx).length = ([⟨1, 0⟩] : List Cplx).length
    ∧ (VectorMath.divide false ippsDivDocumented [⟨0, 0⟩] [⟨1, 0⟩] []).2.length = 1
    ∧ (VectorMath.divide true ippsDivDocumented [⟨0, 0⟩] [⟨1, 0⟩] []).1 = 0 := by
  decide!

/-- C20, amended: `divide` returns -1 and leaves `res` unchanged when `den`
and `num` differ in length.  With a common length `n`, `res` gets length `n`;
the `std::transform` branch returns 0 with `res[i] = num[i]/den[i]`; the IPP
branch returns 0 when the primitive reports `ippStsNoErr` and -1 otherwise,
after `res` was resized.  For nonzero denominators both branches (the IPP one
with the documented primitive) return 0 and the same quotients, and
`res[i]*den[i] = num[i]`. -/
theorem vectorMath_divide (intelCompiler : Bool)
    (ippsDiv : List Cplx → List Cplx → Nat → IppStatus × List Cplx)
    (den num res : List Cplx) :
    (num.length ≠ den.length →
      VectorMath.divide intelCompiler ippsDiv den num res = (-1, res))
    ∧ (num.length = den.length →
      (VectorMath.divide intelCompiler ippsDiv den num res).2.length = num.length)
    ∧ (num.length = den.length →
      VectorMath.divide true ippsDiv den num res = (0, List.zipWith Cplx.div num den))
    ∧ (num.length = den.length → (ippsDiv den num num.length).1 = .ippStsNoErr →
      VectorMath.divide false ippsDiv den num res
        = (0, overwriteCplx (resizeCplx res num.length) (ippsDiv den num num.length).2))
    ∧ (num.length = den.length → 1 ≤ num.length →
      (ippsDiv den num num.length).1 ≠ .ippStsNoErr →
      (VectorMath.divide false ippsDiv den num res).1 = -1)
    ∧ (num.length = den.length → (∀ d ∈ den, d ≠ Cplx.zero) →
      VectorMath.divide false ippsDivDocumented den num res
        = (0, List.zipWith Cplx.div num den))
    ∧ (∀ i, i < num.length → i < den.length →
      (List.zipWith Cplx.div num den).getD i Cplx.zero
          = Cplx.div (num.getD i Cplx.zero) (den.getD i Cplx.zero)
      ∧ (den.getD i Cplx.zero ≠ Cplx.zero →
          Cplx.mul ((List.zipWith Cplx.div num den).getD i Cplx.zero) (den.getD i Cplx.zero)
            = num.getD i Cplx.zero)) := by
  have hz : ∀ i, i < num.length → i < den.length →
      (List.zipWith Cplx.div num den).getD i Cplx.zero
          = Cplx.div (num.getD i Cplx.zero) (den.getD i Cplx.zero) := by
    intro i h1 h2
    simp only [List.getD_eq_getElem?_getD, List.getElem?_zipWith,
      List.getElem?_eq_getElem h1, List.getElem?_eq_getElem h2, Option.getD_some]
  refine ⟨?_, ?_, ?_, ?_, ?_, ?_, ?_⟩
  · intro h
    have c1 : (num.length : Int) ≠ (den.length : Int) := by exact_mod_cast h
    unfold VectorMath.divide
    exact if_pos c1
  · intro h
    rw [VectorMath.divide_same_length _ _ _ _ _ h]
    by_cases h0 : num.length = 0
    · simp [h0]
    · simp only [h0, if_false]
      cases intelCompiler
      · simp only [Bool.false_eq_true, if_false]
        split <;> simp [overwriteCplx_length, resizeCplx_length]
      · simp [List.length_zipWith, h]
  · intro h
    rw [VectorMath.divide_same_length _ _ _ _ _ h]
    by_cases h0 : num.length = 0
    · have : num = [] := List.length_eq_zero.1 h0
      simp [this]
    · simp [h0]
  · intro h hs
    rw [VectorMath.divide_same_length _ _ _ _ _ h]
    by_cases h0 : num.length = 0
    · have hn : num = [] := List.length_eq_zero.1 h0
      simp [hn, resizeCplx, overwriteCplx]
    · simp [h0, hs]
  · intro h h1 hs
    rw [VectorMath.divide_same_length _ _ _ _ _ h]
    have h0 : ¬ num.length = 0 := by omega
    simp [h0, hs]
  · intro h hd
    rw [VectorMath.divide_same_length _ _ _ _ _ h]
    by_cases h0 : num.length = 0
    · have hn : num = [] := List.length_eq_zero.1 h0
      simp [hn]
    · have hm : Cplx.zero ∉ den.take num.length := fun hc => hd _ (List.mem_of_mem_take hc) rfl
      have ht : den.take num.length = den := List.take_of_length_le (by omega)
      have hma : Cplx.zero ∉ den := by rw [ht] at hm; exact hm
      simp only [h0, if_false, Bool.false_eq_true, ippsDivDocumented, List.take_length, ht,
        ne_eq, not_true_eq_false, hma]
      rw [overwriteCplx_full _ _ (by rw [resizeCplx_length, List.length_zipWith]; omega)]
  · intro i h1 h2
    refine ⟨hz i h1 h2, fun hne => ?_⟩
    rw [hz i h1 h2, Cplx.div_mul_cancel _ _ hne]

/-- C20, amended, at `den = [1 + i, 2]`, `num = [1, 3 + 4i]`. -/
theorem vectorMath_divide_witness :
    VectorMath.divide false ippsDivDocumented [⟨1, 1⟩, ⟨2, 0⟩] [⟨1, 0⟩, ⟨3, 4⟩] [⟨9, 9⟩]
      = (0, List.zipWith Cplx.div [⟨1, 0⟩, ⟨3, 4⟩] [⟨1, 1⟩, ⟨2, 0⟩]) :=
  (vectorMath_divide false ippsDivDocumented [⟨1, 1⟩, ⟨2, 0⟩] [⟨1, 0⟩, ⟨3, 4⟩]
    [⟨9, 9⟩]).2.2.2.2.2.1 rfl (by decide!)

end RTSeis
